/-
Verification of the trading-engine core against its specification.

Shallow embedding of the Python source (src/trading-engine) into Lean 4.
Python floats are modelled as exact rationals (ℚ); `round(x, n)` is modelled
as decimal round-half-to-even (Python's documented behaviour, idealized away
from binary-float tie artifacts — all concrete inputs used below sit away
from exact ties).  Lists are most-recent-first where the source indexes
`trade_history[:n]`, matching the database query order.
-/
import Mathlib

/-! ## Decimal rounding (model of Python `round(x, n)`) -/

/-- Round a rational to the nearest integer, ties to even
(Python `round` semantics on exact decimals). -/
def roundHalfEven (q : ℚ) : ℤ :=
  if q - ⌊q⌋ < 1/2 then ⌊q⌋
  else if 1/2 < q - ⌊q⌋ then ⌊q⌋ + 1
  else if Even ⌊q⌋ then ⌊q⌋ else ⌊q⌋ + 1

/-- Model of Python `round(x, 2)`. -/
def round2 (q : ℚ) : ℚ := (roundHalfEven (q * 100) : ℚ) / 100

/-- Model of Python `round(x, 3)`. -/
def round3 (q : ℚ) : ℚ := (roundHalfEven (q * 1000) : ℚ) / 1000

/-! ## Candle model and CandleProcessor
(src/trading-engine/src/market_data/candle_processor.py) -/

/-- One OHLCV candle (`clean_candles` output). Prices are modelled as ℚ. -/
structure Candle where
  open_ : ℚ
  high : ℚ
  low : ℚ
  close : ℚ
  volume : ℚ
deriving Repr, DecidableEq

namespace CandleProcessor

/-- Source `calculate_body_size`: `abs(close - open)`. -/
def calculate_body_size (c : Candle) : ℚ := |c.close - c.open_|

/-- Source `calculate_range`: `high - low`. -/
def calculate_range (c : Candle) : ℚ := c.high - c.low

/-- Source `calculate_body_ratio`: body / range, 0.0 when the range is zero. -/
def calculate_body_ratio (c : Candle) : ℚ :=
  if calculate_range c = 0 then 0 else calculate_body_size c / calculate_range c

/-- Source `is_bullish`: close > open. -/
def is_bullish (c : Candle) : Bool := c.open_ < c.close

/-- Source `is_bearish`: close < open. -/
def is_bearish (c : Candle) : Bool := c.close < c.open_

/-- Source `calculate_upper_wick`: high - max(open, close). -/
def calculate_upper_wick (c : Candle) : ℚ := c.high - max c.open_ c.close

/-- Source `calculate_lower_wick`: min(open, close) - low. -/
def calculate_lower_wick (c : Candle) : ℚ := min c.open_ c.close - c.low

/-- Source `calculate_max_wick`: larger of the two wicks. -/
def calculate_max_wick (c : Candle) : ℚ :=
  max (calculate_upper_wick c) (calculate_lower_wick c)

/-- Source `calculate_wick_ratio`: max wick / range, 0.0 when the range is zero. -/
def calculate_wick_ratio (c : Candle) : ℚ :=
  if calculate_range c = 0 then 0 else calculate_max_wick c / calculate_range c

end CandleProcessor

/-! ## RSI (src/trading-engine/src/market_data/indicators.py, `calculate_rsi`) -/

/-- One trailing window of `period` deltas, as in the body of the loop in
`calculate_rsi`.  When the window is not all-zero it is nonempty, so the
`sum/period` averages in the source divide by a positive count. -/
def rsiWindow (period : ℕ) (w : List ℚ) : ℚ :=
  if w.all (fun d => d = 0) then 50
  else
    let avg_gain := (w.filter (fun d => 0 < d)).sum / period
    let avg_loss := ((w.filter (fun d => d < 0)).map (fun d => -d)).sum / period
    if avg_loss = 0 then 100
    else 100 - 100 / (1 + avg_gain / avg_loss)

/-- Source `calculate_rsi(prices, period)`: empty when `len(prices) < period + 1`;
otherwise one value per trailing window `deltas[i-period:i]`,
`i = period .. len(deltas)`. -/
def calculate_rsi (prices : List ℚ) (period : ℕ) : List ℚ :=
  if prices.length < period + 1 then []
  else
    let deltas := List.zipWith (fun a b => a - b) prices.tail prices
    (List.range (deltas.length + 1 - period)).map
      (fun k => rsiWindow period ((deltas.drop k).take period))

/-! ## PositionSizer (src/trading-engine/src/risk/position_sizer.py) -/

namespace PositionSizer

/-- Source `point_value_per_lot` used by the sizer (hard-coded for XAUUSD). -/
def point_value_per_lot : ℚ := 100

/-- Rounding step of `calculate_lot_size`: 3 decimals when micro lots are
configured (`min_lot_size < 0.01`), else 2 decimals. -/
def roundLots (min_lot x : ℚ) : ℚ :=
  if min_lot < 1/100 then round3 x else round2 x

/-- Source `HARD_MAX_LOT` cap applied to the raw lot count (safety control 1). -/
def hardCap (x : ℚ) : ℚ := if x > 1/10 then 1/10 else x

/-- Configured clamp, precision rounding, and the final minimum floor
(source lines: `max(min, min(lots, max))`, `round(lots, 2 or 3)`,
`max(min, lots)`) — applied both on the first pass and after the
2%-safety recomputation. -/
def clampRound (min_lot max_lot x : ℚ) : ℚ :=
  max min_lot (roundLots min_lot (max min_lot (min x max_lot)))

/-- Source `calculate_lot_size(equity, risk_percent, stop_distance_points)`,
parameterized over the configured `min_lot_size` / `max_lot_size`
(defaults 0.01 / 0.30).  Faithful transcription: invalid-parameter guard,
raw lots, hard cap 0.10, configured clamp + rounding + min floor, then the
2%-actual-risk safety recomputation (which clamps and rounds again but does
not reapply the 0.10 hard cap). -/
def calculate_lot_size (min_lot max_lot equity risk_percent stop_distance_points : ℚ) : ℚ :=
  if equity ≤ 0 ∨ risk_percent ≤ 0 ∨ stop_distance_points ≤ 0 then min_lot
  else if stop_distance_points * point_value_per_lot = 0 then min_lot
  else if clampRound min_lot max_lot
      (hardCap (equity * (risk_percent / 100) / (stop_distance_points * point_value_per_lot))) *
      stop_distance_points * point_value_per_lot / equity * 100 > 2 then
    clampRound min_lot max_lot
      (equity * (2 / 100) / (stop_distance_points * point_value_per_lot))
  else
    clampRound min_lot max_lot
      (hardCap (equity * (risk_percent / 100) / (stop_distance_points * point_value_per_lot)))

/-- Source `calculate_stop_distance(entry_price, stop_percent)`: the config value is
points·100; add a 3-point buffer.  The entry price is only logged. -/
def calculate_stop_distance (stop_percent : ℚ) : ℚ :=
  stop_percent * 100 + 3

end PositionSizer

/-! ## CircuitBreaker (src/trading-engine/src/risk/circuit_breaker.py)

Time (`datetime.now()`) is modelled as a rational number of minutes passed
explicitly to `check_halts`.  The persisted-event side effects (database
writes, logging) are outside the claims and are omitted. -/

/-- A recorded trade as read back from `get_trade_history` (most recent
first).  Fields default like `t.get(key, 0)` in the source. -/
structure Trade where
  pnl : ℚ
  exit_reason : String
  entry_price : ℚ
  stop_loss : ℚ
  lot_size : ℚ
  direction : String
deriving Repr, DecidableEq

/-- Circuit-breaker configuration (`__init__` defaults from the source). -/
structure CBConfig where
  consecutive_losses_threshold : ℕ := 3
  losses_in_window : ℕ := 5
  window_size : ℕ := 7
  daily_drawdown_percent : ℚ := 3
  stopouts_in_window : ℕ := 4
  stopout_window_size : ℕ := 5
  halt_duration_minutes : ℚ := 60
  after_1_loss_confidence : ℚ := 70
  after_2_losses_risk : ℚ := 3/10
  after_2_losses_confidence : ℚ := 75
  default_risk_percent : ℚ := 1/2
  default_confidence : ℚ := 60
deriving Repr, DecidableEq

/-- Mutable state of the `CircuitBreaker` instance. -/
structure CBState where
  halted : Bool
  halt_reason : Option String
  halt_start_time : Option ℚ
  loss_count : ℕ
  adjusted_risk_percent : ℚ
  adjusted_confidence_threshold : ℚ
deriving Repr, DecidableEq

/-- The dictionary returned by `check_halts` (`duration_minutes` omitted:
no claim mentions it). -/
structure HaltResult where
  halted : Bool
  reason : Option String
deriving Repr, DecidableEq

namespace CircuitBreaker

/-- The `risk_amount_r` computed inside `_check_reset_conditions`:
stop distance in points (`stop_distance_price / 0.01`) times the
point value per lot used THERE (`1.0`, per the source comment
"$1 per point per lot for XAUUSD") times the lot size. -/
def tradeRiskAmount (t : Trade) : ℚ :=
  (if t.direction = "buy" then t.entry_price - t.stop_loss
   else t.stop_loss - t.entry_price) / (1/100) * 1 * t.lot_size

/-- Source `_check_reset_conditions`: 2 consecutive wins, or a single win with
P&L ≥ 1.5·R where R is `tradeRiskAmount` (point value 1.0). -/
def check_reset_conditions (hist : List Trade) : Bool :=
  if hist.length < 2 then false
  else if (hist.take 2).all (fun t => 0 < t.pnl) then true
  else
    match hist with
    | [] => false
    | last_trade :: _ =>
      if 0 < last_trade.pnl then
        if 0 < last_trade.entry_price ∧ 0 < last_trade.stop_loss ∧ 0 < last_trade.lot_size then
          decide (0 < tradeRiskAmount last_trade ∧
            tradeRiskAmount last_trade * (3/2) ≤ last_trade.pnl)
        else false
      else false

/-- Source `_reset`: back to default parameters. -/
def resetState (cfg : CBConfig) : CBState :=
  { halted := false
    halt_reason := none
    halt_start_time := none
    loss_count := 0
    adjusted_risk_percent := cfg.default_risk_percent
    adjusted_confidence_threshold := cfg.default_confidence }

/-- Source `_trigger_halt(reason)` at time `now`: only acts when not already halted. -/
def triggerHalt (st : CBState) (reason : String) (now : ℚ) : CBState :=
  if st.halted then st
  else { st with halted := true, halt_reason := some reason, halt_start_time := some now }

/-- Source `_adjust_risk_parameters`: graduated response on the last 3 trades. -/
def adjust_risk_parameters (cfg : CBConfig) (st : CBState) (hist : List Trade) : CBState :=
  if hist = [] then st
  else
    let recent_losses := ((hist.take 3).filter (fun t => t.pnl < 0)).length
    let st1 := { st with loss_count := recent_losses }
    let st2 :=
      if 1 ≤ recent_losses then
        { st1 with adjusted_confidence_threshold := cfg.after_1_loss_confidence }
      else st1
    if 2 ≤ recent_losses then
      { st2 with adjusted_risk_percent := cfg.after_2_losses_risk,
                 adjusted_confidence_threshold := cfg.after_2_losses_confidence }
    else st2

/-- The body of `check_halts` after the expired-halt handling: the four halt
predicates in order, then the graduated response. -/
def mainChecks (cfg : CBConfig) (st : CBState) (hist : List Trade)
    (daily_pnl starting_equity now : ℚ) : CBState × HaltResult :=
  if cfg.consecutive_losses_threshold ≤ hist.length ∧
     (hist.take cfg.consecutive_losses_threshold).all (fun t => t.pnl < 0) then
    (triggerHalt st "3_consecutive_losses" now, ⟨true, some "3_consecutive_losses"⟩)
  else if cfg.window_size ≤ hist.length ∧
     cfg.losses_in_window ≤ ((hist.take cfg.window_size).filter (fun t => t.pnl < 0)).length then
    (triggerHalt st "5_losses_in_7_trades" now, ⟨true, some "5_losses_in_7_trades"⟩)
  else if 0 < starting_equity ∧ daily_pnl / starting_equity * 100 ≤ -cfg.daily_drawdown_percent then
    (triggerHalt st "daily_drawdown_3pct" now, ⟨true, some "daily_drawdown_3pct"⟩)
  else if cfg.stopout_window_size ≤ hist.length ∧
     cfg.stopouts_in_window ≤
       ((hist.take cfg.stopout_window_size).filter (fun t => t.exit_reason = "stop_loss")).length then
    (triggerHalt st "4_stopouts_in_5_trades" now, ⟨true, some "4_stopouts_in_5_trades"⟩)
  else
    (adjust_risk_parameters cfg st hist, ⟨false, none⟩)

/-- Source `check_halts(trade_history, daily_pnl, starting_equity)` at time `now`.
Note the source has no `else` for a live (unexpired) halt: when the halt
duration has not elapsed, control falls through to the fresh halt checks. -/
def check_halts (cfg : CBConfig) (st : CBState) (hist : List Trade)
    (daily_pnl starting_equity now : ℚ) : CBState × HaltResult :=
  match st.halted, st.halt_start_time with
  | true, some t0 =>
    if cfg.halt_duration_minutes ≤ now - t0 then
      if check_reset_conditions hist then
        (resetState cfg, ⟨false, some "Halt period expired and reset conditions met"⟩)
      else
        (st, ⟨true, st.halt_reason⟩)
    else
      mainChecks cfg st hist daily_pnl starting_equity now
  | _, _ => mainChecks cfg st hist daily_pnl starting_equity now

end CircuitBreaker

/-! ## BacktestOrderExecutor
(src/trading-engine/src/backtesting/backtest_order_executor.py)

`self.positions` (a dict keyed by ticket) is modelled as an association
list with distinct keys; `update_positions`' returned list of closed
positions is produced by folding `close_position` over the collected
(ticket, price, reason) entries, exactly as the source's final loop does.
Equity bookkeeping on the connector is outside the claims and omitted. -/

/-- A virtual position (`type`: 0 = buy, 1 = sell). -/
structure BPos where
  ptype : ℕ
  volume : ℚ
  price_open : ℚ
  sl : ℚ
  tp : ℚ
  profit : ℚ
deriving Repr, DecidableEq

/-- A closed-trade record as assembled by `close_position`. -/
structure ClosedTrade where
  ticket : ℕ
  entry_price : ℚ
  exit_price : ℚ
  lot_size : ℚ
  stop_loss : ℚ
  take_profit : ℚ
  pnl : ℚ
  exit_reason : String
deriving Repr, DecidableEq

namespace BacktestOrderExecutor

/-- P&L of a position at an exit price:
`(price_diff / 0.01) * volume * 100`. -/
def positionPnl (p : BPos) (exit_price : ℚ) : ℚ :=
  if p.ptype = 0 then (exit_price - p.price_open) / (1/100) * p.volume * 100
  else (p.price_open - exit_price) / (1/100) * p.volume * 100

/-- The per-position unrealized-profit update at the top of the
`update_positions` loop (bid for buys, ask for sells). -/
def updateProfit (bid ask : ℚ) (p : BPos) : BPos :=
  if p.ptype = 0 then { p with profit := (bid - p.price_open) / (1/100) * p.volume * 100 }
  else { p with profit := (p.price_open - ask) / (1/100) * p.volume * 100 }

/-- The (ticket, exit_price, exit_reason) entries appended to
`positions_to_close`: for each position, the SL check first, then the TP
check, both against the current candle's low/high. -/
def toCloseEntries (candle : Candle) (positions : List (ℕ × BPos)) : List (ℕ × ℚ × String) :=
  positions.flatMap (fun q =>
    (if q.2.ptype = 0 then
        (if candle.low ≤ q.2.sl then [(q.1, q.2.sl, "stop_loss")] else [])
      else
        (if q.2.sl ≤ candle.high then [(q.1, q.2.sl, "stop_loss")] else [])) ++
    (if q.2.ptype = 0 then
        (if q.2.tp ≤ candle.high then [(q.1, q.2.tp, "take_profit")] else [])
      else
        (if candle.low ≤ q.2.tp then [(q.1, q.2.tp, "take_profit")] else [])))

/-- The closed-trade record `close_position` assembles from the position,
exit price and exit reason. -/
def mkClosed (ticket : ℕ) (p : BPos) (exit_price : ℚ) (exit_reason : String) : ClosedTrade :=
  { ticket := ticket
    entry_price := p.price_open
    exit_price := exit_price
    lot_size := p.volume
    stop_loss := p.sl
    take_profit := p.tp
    pnl := positionPnl p exit_price
    exit_reason := exit_reason }

/-- Source `close_position(ticket, exit_price, exit_reason)` with explicit price and
reason (the form used from `update_positions`): no-op (returns `None`) when
the ticket is no longer an open position. -/
def close_position (positions : List (ℕ × BPos)) (closed : List ClosedTrade)
    (ticket : ℕ) (exit_price : ℚ) (exit_reason : String) :
    List (ℕ × BPos) × List ClosedTrade :=
  match positions.lookup ticket with
  | none => (positions, closed)
  | some p =>
    (positions.filter (fun q => q.1 ≠ ticket), closed ++ [mkClosed ticket p exit_price exit_reason])

/-- One step of the closing loop at the end of `update_positions`. -/
def closeStep (acc : List (ℕ × BPos) × List ClosedTrade) (e : ℕ × ℚ × String) :
    List (ℕ × BPos) × List ClosedTrade :=
  close_position acc.1 acc.2 e.1 e.2.1 e.2.2

/-- Source `update_positions(current_price_data, current_time)`: update unrealized
profit, collect SL/TP hits, then close them in order.  Returns the new open
set and the list of closed positions. -/
def update_positions (candle : Candle) (bid ask : ℚ) (positions : List (ℕ × BPos)) :
    List (ℕ × BPos) × List ClosedTrade :=
  let positions := positions.map (fun q => (q.1, updateProfit bid ask q.2))
  (toCloseEntries candle positions).foldl closeStep (positions, [])

end BacktestOrderExecutor

/-! ## MomentumAnalyzer (src/trading-engine/src/signals/momentum_analyzer.py)

Two-stage configuration with the default stage-1 lookback of 2 (the
weighted scoring reads exactly the last and second-to-last candles).
The multiplier strings are already parsed to numbers at `__init__`. -/

/-- Parsed two-stage momentum configuration (defaults from `__init__`). -/
structure MomCfg where
  min_body_ratio : ℚ := 55/100
  weighted_threshold : ℚ := 1/2
  size_multiplier : ℚ := 12/10
  skip_stage2_if_strong : Bool := false
  stage1_strong_threshold : ℚ := 7/10
  volume_spike_multiplier : ℚ := 13/10
  max_wick_ratio : ℚ := 35/100
deriving Repr, DecidableEq

/-- Result dictionary of `analyze_m1_momentum`. -/
structure MomentumOut where
  direction : String
  strength : ℚ
  body_ratio : ℚ
  wick_ratio : ℚ
deriving Repr, DecidableEq

namespace MomentumAnalyzer

open CandleProcessor

/-- The `direction='none'` result: wick ratio of the last candle
(0.5 when there are no candles). -/
def noneOut (candles : List Candle) : MomentumOut :=
  { direction := "none", strength := 0, body_ratio := 0
    wick_ratio := match candles.getLast? with
      | some c => calculate_wick_ratio c
      | none => 1/2 }

/-- Source `_check_volume_spike_stage2`: current volume ≥ multiplier × average of
the previous five volumes (`candles[-6:-1]`); `False` without volume data. -/
def check_volume_spike_stage2 (cfg : MomCfg) (candles : List Candle) : Bool :=
  if candles.length < 6 then false
  else
    let recent_volumes := ((candles.drop (candles.length - 6)).take 5).map (fun c => c.volume)
    let current_volume := ((candles.getLast?).map (fun c => c.volume)).getD 0
    if recent_volumes = [] ∨ recent_volumes.sum = 0 ∨ current_volume = 0 then false
    else
      let avg_volume := recent_volumes.sum / recent_volumes.length
      decide (avg_volume * cfg.volume_spike_multiplier ≤ current_volume)

/-- Stage-1 weighted score contribution of one candle
(weight · min(body_ratio / min_body_ratio, 1) when the candle points the
right way with a sufficient body, else 0). -/
def candleScore (cfg : MomCfg) (weight : ℚ) (bullishSide : Bool) (c : Candle) : ℚ :=
  let ratio := calculate_body_ratio c
  let pointsRightWay := if bullishSide then is_bullish c else is_bearish c
  if pointsRightWay ∧ cfg.min_body_ratio ≤ ratio then weight * min (ratio / cfg.min_body_ratio) 1
  else 0

/-- Stage-2 size check with the source's effective multiplier: the raw
multiplier below 1.0 or above 1.1, and the lenient constant 0.95 in
between. -/
def sizeCheck (cfg : MomCfg) (current_body avg_body : ℚ) : Bool :=
  if cfg.size_multiplier < 1 then decide (avg_body * cfg.size_multiplier ≤ current_body)
  else if cfg.size_multiplier ≤ 11/10 then decide (avg_body * (95/100) ≤ current_body)
  else decide (avg_body * cfg.size_multiplier ≤ current_body)

/-- Source `_analyze_two_stage_momentum(candles, rsi)` (the `rsi` argument is unused
by the source).  Stage 1 weighted scoring on the last two candles; stage 2
strength check, skippable when stage 1 is strong. -/
def analyze_two_stage_momentum (cfg : MomCfg) (candles : List Candle) : MomentumOut :=
  if candles.length < 5 then noneOut candles
  else
    match (candles.drop (candles.length - 2)), candles.getLast? with
    | [previous_candle, current_candle], some last_candle =>
      let bullish_score := candleScore cfg (6/10) true current_candle +
        candleScore cfg (4/10) true previous_candle
      let bearish_score := candleScore cfg (6/10) false current_candle +
        candleScore cfg (4/10) false previous_candle
      let winning_score := max bullish_score bearish_score
      let direction : Option String :=
        if cfg.weighted_threshold ≤ bullish_score ∧ bearish_score < bullish_score then some "buy"
        else if cfg.weighted_threshold ≤ bearish_score ∧ bullish_score < bearish_score then
          some "sell"
        else none
      match direction with
      | none => noneOut candles
      | some dir =>
        let skip_stage2 := cfg.skip_stage2_if_strong ∧ cfg.stage1_strong_threshold ≤ winning_score
        let last_5_candles :=
          if 6 ≤ candles.length then (candles.drop (candles.length - 6)).take 5
          else candles.take (candles.length - 1)
        let stage2 : Option Bool :=
          if skip_stage2 then some true
          else if last_5_candles.length < 1 then none
          else
            let avg_body_size :=
              (last_5_candles.map (fun c => calculate_body_size c)).sum / last_5_candles.length
            let current_body_size := calculate_body_size last_candle
            some (sizeCheck cfg current_body_size avg_body_size ||
              check_volume_spike_stage2 cfg candles)
        match stage2 with
        | none => noneOut candles
        | some false => noneOut candles
        | some true =>
          let stage_1_candles := [previous_candle, current_candle]
          let body_ratios := stage_1_candles.map (fun c => calculate_body_ratio c)
          let avg_body_ratio := body_ratios.sum / body_ratios.length
          let body_sizes := stage_1_candles.map (fun c => calculate_body_size c)
          let ranges := stage_1_candles.map (fun c => calculate_range c)
          let strength := if 0 < ranges.sum then body_sizes.sum / ranges.sum else 0
          { direction := dir, strength := strength, body_ratio := avg_body_ratio
            wick_ratio := calculate_wick_ratio last_candle }
    | _, _ => noneOut candles

end MomentumAnalyzer

/-! ## ExitStrategy (src/trading-engine/src/position/exit_strategy.py)

`datetime.now() - entry_time` is modelled by passing the hold time in
minutes explicitly. -/

/-- Exit-strategy configuration (defaults from `__init__`). -/
structure ExitCfg where
  time_limit_minutes : ℚ := 15
  breakeven_profit_percent : ℚ := 15/100
  breakeven_buffer_points : ℚ := 2
  risk_reward_ratio : ℚ := 12/10
deriving Repr, DecidableEq

/-- The live-position fields read by `evaluate_exits`
(`type`: 0 = buy, 1 = sell). -/
structure LivePosition where
  ptype : ℕ
  price_open : ℚ
  sl : ℚ
deriving Repr, DecidableEq

/-- Result dictionary of `evaluate_exits`. -/
structure ExitEval where
  should_exit : Bool
  exit_type : String
  action : String
  exit_reason : Option String
  new_sl : Option ℚ
deriving Repr, DecidableEq

namespace ExitStrategy

open CandleProcessor

/-- Source `evaluate_exits(position, market_data, indicators, entry_time)`:
take profit, then time limit, then stop loss, then momentum reversal,
then break-even protection, in the source's order. -/
def evaluate_exits (cfg : ExitCfg) (pos : LivePosition) (current_price : ℚ)
    (m1_candles : List Candle) (hold_time_minutes : ℚ) : ExitEval :=
  let profit_price := if pos.ptype = 0 then current_price - pos.price_open
    else pos.price_open - current_price
  let profit_percent := profit_price / pos.price_open * 100
  let stop_distance := |pos.price_open - pos.sl|
  let tp_distance := stop_distance * cfg.risk_reward_ratio
  let tp_hit := if pos.ptype = 0 then pos.price_open + tp_distance ≤ current_price
    else current_price ≤ pos.price_open - tp_distance
  if tp_hit then
    ⟨true, "take_profit", "close", some "take_profit", none⟩
  else if cfg.time_limit_minutes ≤ hold_time_minutes then
    ⟨true, "time_limit", "close", some "time_limit", none⟩
  else if (if pos.ptype = 0 then current_price ≤ pos.sl else pos.sl ≤ current_price) then
    ⟨true, "stop_loss", "close", some "stop_loss", none⟩
  else if 3 ≤ m1_candles.length ∧
      (let recent := m1_candles.drop (m1_candles.length - 3)
       if pos.ptype = 0 then recent.all (fun c => is_bearish c)
       else recent.all (fun c => is_bullish c)) then
    ⟨true, "momentum_reversal", "close", some "momentum_reversal", none⟩
  else if cfg.breakeven_profit_percent ≤ profit_percent ∧
      (if pos.ptype = 0 then pos.sl < pos.price_open + cfg.breakeven_buffer_points * (1/100)
       else pos.price_open - cfg.breakeven_buffer_points * (1/100) < pos.sl) then
    (if pos.ptype = 0 then
      ⟨false, "breakeven_protection", "adjust_sl", none,
        some (pos.price_open + cfg.breakeven_buffer_points * (1/100))⟩
     else
      ⟨false, "breakeven_protection", "adjust_sl", none,
        some (pos.price_open - cfg.breakeven_buffer_points * (1/100))⟩)
  else
    ⟨false, "none", "hold", none, none⟩

end ExitStrategy

/-! ## Spec-side definitions used to state the claims -/

namespace CircuitBreaker

/-- The reset condition as the claim words it: two most recent trades both
with positive P&L, or the single most recent trade a winner with realized
P&L ≥ 1.5 × R where R = stop_distance_points · point_value_per_lot ·
lot_size and point_value_per_lot = 100 (the claimed per-lot point value of
the default instrument). -/
def resetConditionsClaim (hist : List Trade) : Prop :=
  (2 ≤ hist.length ∧ ∀ t ∈ hist.take 2, 0 < t.pnl) ∨
  (∃ t0, hist.head? = some t0 ∧ 0 < t0.pnl ∧
    ((if t0.direction = "buy" then t0.entry_price - t0.stop_loss
      else t0.stop_loss - t0.entry_price) / (1/100)) * 100 * t0.lot_size * (3/2) ≤ t0.pnl)

/-- The reset condition actually implemented: at least two recorded trades,
and either the two most recent both winners, or the most recent a winner
with positive entry price, stop loss and lot size whose P&L is at least
1.5 × R, with R computed at point value 1.0 per point per lot
(`tradeRiskAmount`) and required positive. -/
def resetConditionsAmended (hist : List Trade) : Prop :=
  2 ≤ hist.length ∧
  ((∀ t ∈ hist.take 2, 0 < t.pnl) ∨
   ∃ t0, hist.head? = some t0 ∧ 0 < t0.pnl ∧ 0 < t0.entry_price ∧ 0 < t0.stop_loss ∧
     0 < t0.lot_size ∧ 0 < tradeRiskAmount t0 ∧ tradeRiskAmount t0 * (3/2) ≤ t0.pnl)

end CircuitBreaker

namespace MomentumAnalyzer

/-- The multiplier the stage-2 size check effectively applies: the
configured multiplier, except the lenient constant 0.95 when the configured
value lies in [1.0, 1.1]. -/
def effectiveSizeMultiplier (cfg : MomCfg) : ℚ :=
  if cfg.size_multiplier < 1 then cfg.size_multiplier
  else if cfg.size_multiplier ≤ 11/10 then 95/100
  else cfg.size_multiplier

/-- The previous five candles (`candles[-6:-1]`) whose average body size and
volume stage 2 compares against. -/
def last5 (candles : List Candle) : List Candle :=
  (candles.drop (candles.length - 6)).take 5

end MomentumAnalyzer

/-- The per-window RSI value as the claim words it: 50 when every delta in
the window is zero; 100 when the average loss is zero; otherwise
`100 − 100/(1 + avg_gain/avg_loss)` with the averages taken over `period`. -/
def rsiSpecWindow (period : ℕ) (w : List ℚ) : ℚ :=
  if ∀ d ∈ w, d = 0 then 50
  else
    let avg_gain := (w.filter (fun d => 0 < d)).sum / period
    let avg_loss := (-(w.filter (fun d => d < 0)).sum) / period
    if avg_loss = 0 then 100
    else 100 - 100 / (1 + avg_gain / avg_loss)

/-! ## Rounding lemmas and evaluation checks -/

theorem roundHalfEven_cases (q : ℚ) : roundHalfEven q = ⌊q⌋ ∨ roundHalfEven q = ⌊q⌋ + 1 := by
  unfold roundHalfEven
  split
  · exact Or.inl rfl
  · split
    · exact Or.inr rfl
    · split
      · exact Or.inl rfl
      · exact Or.inr rfl

theorem roundHalfEven_le (q : ℚ) : (roundHalfEven q : ℚ) ≤ q + 1/2 := by
  have hfl : (⌊q⌋ : ℚ) ≤ q := Int.floor_le q
  unfold roundHalfEven
  split
  · linarith
  · rename_i h1
    push_neg at h1
    split
    · rename_i h2
      push_cast
      linarith
    · rename_i h2
      push_neg at h2
      have hr : q - (⌊q⌋ : ℚ) = 1/2 := le_antisymm h2 h1
      split
      · linarith
      · push_cast
        linarith

theorem le_roundHalfEven (q : ℚ) : q - 1/2 ≤ (roundHalfEven q : ℚ) := by
  have hfl : q - 1 < (⌊q⌋ : ℚ) := Int.sub_one_lt_floor q
  have hfl2 : (⌊q⌋ : ℚ) ≤ q := Int.floor_le q
  unfold roundHalfEven
  split
  · rename_i h1
    linarith
  · rename_i h1
    push_neg at h1
    split
    · push_cast
      linarith
    · split
      · linarith
      · push_cast
        linarith

theorem roundHalfEven_mono {q r : ℚ} (h : q ≤ r) : roundHalfEven q ≤ roundHalfEven r := by
  rcases lt_or_eq_of_le (Int.floor_le_floor h) with hf | hf
  · rcases roundHalfEven_cases q with hq | hq <;> rcases roundHalfEven_cases r with hr | hr <;>
      rw [hq, hr] <;> omega
  · -- same floor
    have hq1 : q - (⌊q⌋ : ℚ) ≤ r - (⌊r⌋ : ℚ) := by
      rw [← hf]; linarith
    unfold roundHalfEven
    by_cases h1 : q - (⌊q⌋ : ℚ) < 1/2
    · rw [if_pos h1]
      rcases roundHalfEven_cases r with hr | hr <;>
        · simp only [roundHalfEven] at hr
          rw [hr]
          omega
    · rw [if_neg h1]
      push_neg at h1
      have h2 : ¬ (r - (⌊r⌋ : ℚ) < 1/2) := by push_neg; linarith
      rw [if_neg h2]
      by_cases h3 : 1/2 < q - (⌊q⌋ : ℚ)
      · have h4 : 1/2 < r - (⌊r⌋ : ℚ) := lt_of_lt_of_le h3 hq1
        rw [if_pos h3, if_pos h4, hf]
      · rw [if_neg h3]
        by_cases h5 : 1/2 < r - (⌊r⌋ : ℚ)
        · rw [if_pos h5]
          split <;> omega
        · rw [if_neg h5, hf]

theorem roundHalfEven_intCast (n : ℤ) : roundHalfEven (n : ℚ) = n := by
  unfold roundHalfEven
  rw [Int.floor_intCast]
  norm_num

theorem round2_le (q : ℚ) : round2 q ≤ q + 1/200 := by
  unfold round2
  have h := roundHalfEven_le (q * 100)
  rw [div_le_iff₀ (by norm_num : (0:ℚ) < 100)]
  linarith

theorem le_round2 (q : ℚ) : q - 1/200 ≤ round2 q := by
  unfold round2
  have h := le_roundHalfEven (q * 100)
  rw [le_div_iff₀ (by norm_num : (0:ℚ) < 100)]
  linarith

theorem round2_mono {q r : ℚ} (h : q ≤ r) : round2 q ≤ round2 r := by
  unfold round2
  have := roundHalfEven_mono (mul_le_mul_of_nonneg_right h (by norm_num : (0:ℚ) ≤ 100))
  have h2 : ((roundHalfEven (q * 100)) : ℚ) ≤ ((roundHalfEven (r * 100)) : ℚ) := by
    exact_mod_cast this
  linarith

/-- round2 fixes exact multiples of 1/100. -/
theorem round2_grid {q : ℚ} (h : ∃ k : ℤ, q = (k : ℚ) / 100) : round2 q = q := by
  obtain ⟨k, rfl⟩ := h
  unfold round2
  rw [div_mul_cancel₀ _ (by norm_num : (100:ℚ) ≠ 0), roundHalfEven_intCast]


example : calculate_rsi [1, 1, 1] 2 = [50] := by
  norm_num [calculate_rsi, rsiWindow, List.zipWith, List.range_succ]
example : calculate_rsi [1, 2] 2 = [] := by
  norm_num [calculate_rsi]
example : calculate_rsi [3, 2, 1, 2] 2 = [0, 50] := by
  norm_num [calculate_rsi, rsiWindow, List.zipWith, List.range_succ]


example : PositionSizer.calculate_stop_distance (30/100) = 33 := by
  norm_num [PositionSizer.calculate_stop_distance]

-- Spec §8 sizing scenario: equity 10000, risk 0.5%, stop 33 points → 0.02 lots.
example : PositionSizer.calculate_lot_size (1/100) (30/100) 10000 (1/2) 33 = 2/100 := by
  norm_num [PositionSizer.calculate_lot_size, PositionSizer.clampRound,
    PositionSizer.hardCap, PositionSizer.roundLots, PositionSizer.point_value_per_lot,
    round2, roundHalfEven]

-- C2 counterexample candidate: equity 2491.5, risk 2%, stop 33 → lot 0.02,
-- actual risk 2.649% > 2%.
example : PositionSizer.calculate_lot_size (1/100) (30/100) (4983/2) 2 33 = 2/100 := by
  norm_num [PositionSizer.calculate_lot_size, PositionSizer.clampRound,
    PositionSizer.hardCap, PositionSizer.roundLots, PositionSizer.point_value_per_lot,
    round2, roundHalfEven]

/-! ## C8 — invalid sizing inputs fall back to the configured minimum lot -/

/-- C8: `calculate_lot_size` is total on invalid inputs: whenever
`equity ≤ 0`, `risk_percent ≤ 0` or `stop_distance_points ≤ 0`, it returns
the configured `min_lot_size`, which is a positive (tradeable) lot whenever
the configured minimum is positive. -/
theorem calculate_lot_size_invalid_inputs (min_lot max_lot equity risk_percent d : ℚ)
    (hmin : 0 < min_lot) (h : equity ≤ 0 ∨ risk_percent ≤ 0 ∨ d ≤ 0) :
    PositionSizer.calculate_lot_size min_lot max_lot equity risk_percent d = min_lot ∧
    0 < PositionSizer.calculate_lot_size min_lot max_lot equity risk_percent d := by
  unfold PositionSizer.calculate_lot_size
  rw [if_pos h]
  exact ⟨rfl, hmin⟩

/-- Witness for C8 at equity −5 (invalid), min_lot 0.01. -/
theorem calculate_lot_size_invalid_inputs_witness :
    PositionSizer.calculate_lot_size (1/100) (3/10) (-5) (1/2) 33 = 1/100 ∧
    (0:ℚ) < PositionSizer.calculate_lot_size (1/100) (3/10) (-5) (1/2) 33 :=
  calculate_lot_size_invalid_inputs (1/100) (3/10) (-5) (1/2) 33 (by norm_num)
    (Or.inl (by norm_num))

/-! ## C9 — zero-range candles give zero ratios; division is guarded -/

/-- C9: for a candle with `high = low` both `calculate_body_ratio` and
`calculate_wick_ratio` return 0; and for `high ≥ low` with `high ≠ low` the
divisions are by the nonzero range (witnessed by multiplying back), so both
functions are division-safe on every candle with `high ≥ low`. -/
theorem candle_zero_range_ratios (c : Candle) (hle : c.low ≤ c.high) :
    (c.high = c.low →
      CandleProcessor.calculate_body_ratio c = 0 ∧
      CandleProcessor.calculate_wick_ratio c = 0) ∧
    (c.high ≠ c.low →
      CandleProcessor.calculate_range c ≠ 0 ∧
      CandleProcessor.calculate_body_ratio c * CandleProcessor.calculate_range c =
        CandleProcessor.calculate_body_size c ∧
      CandleProcessor.calculate_wick_ratio c * CandleProcessor.calculate_range c =
        CandleProcessor.calculate_max_wick c) := by
  constructor
  · intro h
    have hr : CandleProcessor.calculate_range c = 0 := by
      unfold CandleProcessor.calculate_range
      rw [h]
      ring
    unfold CandleProcessor.calculate_body_ratio CandleProcessor.calculate_wick_ratio
    rw [if_pos hr, if_pos hr]
    exact ⟨rfl, rfl⟩
  · intro h
    have hr : CandleProcessor.calculate_range c ≠ 0 := by
      unfold CandleProcessor.calculate_range
      intro hc
      exact h (by linarith [sub_eq_zero.mp hc])
    refine ⟨hr, ?_, ?_⟩
    · unfold CandleProcessor.calculate_body_ratio
      rw [if_neg hr, div_mul_cancel₀ _ hr]
    · unfold CandleProcessor.calculate_wick_ratio
      rw [if_neg hr, div_mul_cancel₀ _ hr]

/-- Witness for C9 at the flat candle (2000, 2000, 2000, 2000). -/
theorem candle_zero_range_ratios_witness :
    ((2000:ℚ) = 2000 →
      CandleProcessor.calculate_body_ratio ⟨2000, 2000, 2000, 2000, 5⟩ = 0 ∧
      CandleProcessor.calculate_wick_ratio ⟨2000, 2000, 2000, 2000, 5⟩ = 0) ∧
    ((2000:ℚ) ≠ 2000 →
      CandleProcessor.calculate_range ⟨2000, 2000, 2000, 2000, 5⟩ ≠ 0 ∧
      CandleProcessor.calculate_body_ratio ⟨2000, 2000, 2000, 2000, 5⟩ *
        CandleProcessor.calculate_range ⟨2000, 2000, 2000, 2000, 5⟩ =
        CandleProcessor.calculate_body_size ⟨2000, 2000, 2000, 2000, 5⟩ ∧
      CandleProcessor.calculate_wick_ratio ⟨2000, 2000, 2000, 2000, 5⟩ *
        CandleProcessor.calculate_range ⟨2000, 2000, 2000, 2000, 5⟩ =
        CandleProcessor.calculate_max_wick ⟨2000, 2000, 2000, 2000, 5⟩) :=
  candle_zero_range_ratios ⟨2000, 2000, 2000, 2000, 5⟩ (by norm_num)

/-! ## C1 — the live-halt window leaks -/

/-- C1 (bug exhibit): a circuit breaker halted 10 minutes ago
(duration 60 not elapsed) is fed a history whose most recent trade is a win
(closed during the halt) after three losses.  `check_halts` falls through
the expired-halt handling, finds no fresh halt predicate satisfied, and
reports `halted = false` — while the internal state still says
`halted = true` — so the execution loop proceeds to signal generation and
order dispatch inside the halt window. -/
theorem check_halts_live_halt_leak :
    (CircuitBreaker.check_halts {}
      { halted := true, halt_reason := some "3_consecutive_losses",
        halt_start_time := some 0, loss_count := 3,
        adjusted_risk_percent := 1/2, adjusted_confidence_threshold := 75 }
      [⟨50, "take_profit", 2000, 1998, 1/100, "buy"⟩,
       ⟨-10, "stop_loss", 2000, 1998, 1/100, "buy"⟩,
       ⟨-10, "stop_loss", 2000, 1998, 1/100, "buy"⟩,
       ⟨-10, "stop_loss", 2000, 1998, 1/100, "buy"⟩]
      0 10000 10).2.halted = false ∧
    (CircuitBreaker.check_halts {}
      { halted := true, halt_reason := some "3_consecutive_losses",
        halt_start_time := some 0, loss_count := 3,
        adjusted_risk_percent := 1/2, adjusted_confidence_threshold := 75 }
      [⟨50, "take_profit", 2000, 1998, 1/100, "buy"⟩,
       ⟨-10, "stop_loss", 2000, 1998, 1/100, "buy"⟩,
       ⟨-10, "stop_loss", 2000, 1998, 1/100, "buy"⟩,
       ⟨-10, "stop_loss", 2000, 1998, 1/100, "buy"⟩]
      0 10000 10).1.halted = true ∧
    (10:ℚ) - 0 < (({} : CBConfig)).halt_duration_minutes := by
  refine ⟨?_, ?_, by norm_num⟩ <;>
    [skip;
     skip] <;>
    · norm_num [CircuitBreaker.check_halts, CircuitBreaker.mainChecks,
        CircuitBreaker.adjust_risk_parameters, CircuitBreaker.triggerHalt,
        List.take, List.filter, List.all]
      try (split <;> rfl)

/-! ## C10 — graduated-response tightening is sticky -/

theorem triggerHalt_adjusted (st : CBState) (reason : String) (now : ℚ) :
    (CircuitBreaker.triggerHalt st reason now).adjusted_risk_percent =
      st.adjusted_risk_percent ∧
    (CircuitBreaker.triggerHalt st reason now).adjusted_confidence_threshold =
      st.adjusted_confidence_threshold := by
  unfold CircuitBreaker.triggerHalt
  split <;> exact ⟨rfl, rfl⟩

theorem adjust_no_losses (cfg : CBConfig) (st : CBState) (hist : List Trade)
    (h : ∀ t ∈ hist.take 3, 0 ≤ t.pnl) :
    (CircuitBreaker.adjust_risk_parameters cfg st hist).adjusted_risk_percent =
      st.adjusted_risk_percent ∧
    (CircuitBreaker.adjust_risk_parameters cfg st hist).adjusted_confidence_threshold =
      st.adjusted_confidence_threshold := by
  have hz : ((hist.take 3).filter (fun t => t.pnl < 0)).length = 0 := by
    rw [List.length_eq_zero, List.filter_eq_nil_iff]
    intro t ht
    simp only [decide_eq_true_eq]
    exact not_lt.mpr (h t ht)
  unfold CircuitBreaker.adjust_risk_parameters
  split
  · exact ⟨rfl, rfl⟩
  · rw [hz]
    norm_num

theorem mainChecks_adjusted (cfg : CBConfig) (st : CBState) (hist : List Trade)
    (dpnl eq now : ℚ) (h : ∀ t ∈ hist.take 3, 0 ≤ t.pnl) :
    (CircuitBreaker.mainChecks cfg st hist dpnl eq now).1.adjusted_risk_percent =
      st.adjusted_risk_percent ∧
    (CircuitBreaker.mainChecks cfg st hist dpnl eq now).1.adjusted_confidence_threshold =
      st.adjusted_confidence_threshold := by
  unfold CircuitBreaker.mainChecks
  split
  · exact triggerHalt_adjusted _ _ _
  · split
    · exact triggerHalt_adjusted _ _ _
    · split
      · exact triggerHalt_adjusted _ _ _
      · split
        · exact triggerHalt_adjusted _ _ _
        · exact adjust_no_losses cfg st hist h

/-- C10: once tightened, the graduated-response overrides stay in place: a
`check_halts` call whose three most recent trades contain no loss leaves
`adjusted_risk_percent` and `adjusted_confidence_threshold` unchanged —
unless that very call goes through the reset path (`_reset`), which is the
only way the configured defaults come back. -/
theorem graduated_response_sticky (cfg : CBConfig) (st : CBState) (hist : List Trade)
    (dpnl eq now : ℚ) (h : ∀ t ∈ hist.take 3, 0 ≤ t.pnl) :
    ((CircuitBreaker.check_halts cfg st hist dpnl eq now).1.adjusted_risk_percent =
        st.adjusted_risk_percent ∧
     (CircuitBreaker.check_halts cfg st hist dpnl eq now).1.adjusted_confidence_threshold =
        st.adjusted_confidence_threshold) ∨
    (st.halted = true ∧ CircuitBreaker.check_reset_conditions hist = true ∧
     (CircuitBreaker.check_halts cfg st hist dpnl eq now).1 =
        CircuitBreaker.resetState cfg) := by
  cases hh : st.halted
  · simp only [CircuitBreaker.check_halts, hh]
    exact Or.inl (mainChecks_adjusted cfg st hist dpnl eq now h)
  · cases hs : st.halt_start_time
    · simp only [CircuitBreaker.check_halts, hh, hs]
      exact Or.inl (mainChecks_adjusted cfg st hist dpnl eq now h)
    · rename_i t0
      simp only [CircuitBreaker.check_halts, hh, hs]
      split
      · split
        · rename_i hreset
          exact Or.inr ⟨by simp [hh], hreset, rfl⟩
        · exact Or.inl ⟨rfl, rfl⟩
      · exact Or.inl (mainChecks_adjusted cfg st hist dpnl eq now h)

/-- Witness for C10: a tightened, running breaker fed a loss-free recent
history keeps risk 0.3 and confidence 75. -/
theorem graduated_response_sticky_witness :
    ((CircuitBreaker.check_halts {}
        { halted := false, halt_reason := none, halt_start_time := none, loss_count := 2,
          adjusted_risk_percent := 3/10, adjusted_confidence_threshold := 75 }
        [⟨5, "take_profit", 2000, 1998, 1/100, "buy"⟩] 0 10000 0).1.adjusted_risk_percent =
        (3:ℚ)/10 ∧
     (CircuitBreaker.check_halts {}
        { halted := false, halt_reason := none, halt_start_time := none, loss_count := 2,
          adjusted_risk_percent := 3/10, adjusted_confidence_threshold := 75 }
        [⟨5, "take_profit", 2000, 1998, 1/100, "buy"⟩] 0 10000 0).1.adjusted_confidence_threshold =
        (75:ℚ)) ∨
    (false = true ∧
     CircuitBreaker.check_reset_conditions [⟨5, "take_profit", 2000, 1998, 1/100, "buy"⟩] = true ∧
     (CircuitBreaker.check_halts {}
        { halted := false, halt_reason := none, halt_start_time := none, loss_count := 2,
          adjusted_risk_percent := 3/10, adjusted_confidence_threshold := 75 }
        [⟨5, "take_profit", 2000, 1998, 1/100, "buy"⟩] 0 10000 0).1 =
        CircuitBreaker.resetState {}) :=
  graduated_response_sticky {}
    { halted := false, halt_reason := none, halt_start_time := none, loss_count := 2,
      adjusted_risk_percent := 3/10, adjusted_confidence_threshold := 75 }
    [⟨5, "take_profit", 2000, 1998, 1/100, "buy"⟩] 0 10000 0
    (by
      intro t ht
      simp only [List.take, List.mem_cons, List.not_mem_nil, or_false] at ht
      norm_num [ht])

/-! ## C3 — reset conditions after an expired halt -/

theorem check_reset_iff (hist : List Trade) :
    CircuitBreaker.check_reset_conditions hist = true ↔
    CircuitBreaker.resetConditionsAmended hist := by
  unfold CircuitBreaker.check_reset_conditions CircuitBreaker.resetConditionsAmended
  rcases hist with _ | ⟨t0, rest⟩
  · simp
  · by_cases hlen : (t0 :: rest).length < 2
    · rw [if_pos hlen]
      simp only [Bool.false_eq_true, false_iff, not_and]
      intro h2
      omega
    · rw [if_neg hlen]
      push_neg at hlen
      by_cases hall : ((t0 :: rest).take 2).all (fun t => decide (0 < t.pnl)) = true
      · rw [if_pos hall]
        simp only [true_iff]
        refine ⟨hlen, Or.inl ?_⟩
        intro t ht
        exact of_decide_eq_true (List.all_eq_true.mp hall t ht)
      · rw [if_neg hall]
        constructor
        · intro h
          split at h
          · exact absurd h (by simp)
          · rename_i lt tl heq
            injection heq with h1 h2
            subst h1
            split at h
            · rename_i hp
              split at h
              · rename_i hposs
                have hc := of_decide_eq_true h
                exact ⟨hlen, Or.inr ⟨t0, rfl, hp, hposs.1, hposs.2.1, hposs.2.2, hc.1, hc.2⟩⟩
              · exact absurd h (by simp)
            · exact absurd h (by simp)
        · rintro ⟨-, hwins | ⟨t0', ht0eq, hp, hentry, hstop, hlot, hr0, hr15⟩⟩
          · exact absurd
              (List.all_eq_true.mpr (fun t ht => decide_eq_true (hwins t ht))) hall
          · injection ht0eq with ht0eq
            subst ht0eq
            split
            · rename_i heq
              exact absurd heq (by simp)
            · rename_i lt tl heq
              injection heq with h1 h2
              subst h1
              rw [if_pos hp, if_pos ⟨hentry, hstop, hlot⟩]
              exact decide_eq_true ⟨hr0, hr15⟩

/-- C3 counterexample: a halted breaker whose duration has elapsed is fed a
most-recent trade with entry 2000, SL 1999 (100 points), 0.01 lots and
P&L 20 (preceded by a loss).  With the claimed R
(`stop_distance_points · 100 · lots` = 100) the 1.5R bar is 150, so the
claim says the breaker stays halted; the source computes R at point value
1.0 (R = 1, bar 1.5), resets, and reports not halted. -/
theorem reset_point_value_counterexample :
    (CircuitBreaker.check_halts {}
      { halted := true, halt_reason := some "3_consecutive_losses",
        halt_start_time := some 0, loss_count := 3,
        adjusted_risk_percent := 1/2, adjusted_confidence_threshold := 75 }
      [⟨20, "take_profit", 2000, 1999, 1/100, "buy"⟩,
       ⟨-5, "stop_loss", 2000, 1999, 1/100, "buy"⟩]
      0 10000 60).2.halted = false ∧
    (CircuitBreaker.check_halts {}
      { halted := true, halt_reason := some "3_consecutive_losses",
        halt_start_time := some 0, loss_count := 3,
        adjusted_risk_percent := 1/2, adjusted_confidence_threshold := 75 }
      [⟨20, "take_profit", 2000, 1999, 1/100, "buy"⟩,
       ⟨-5, "stop_loss", 2000, 1999, 1/100, "buy"⟩]
      0 10000 60).1.halted = false ∧
    ¬ CircuitBreaker.resetConditionsClaim
      [⟨20, "take_profit", 2000, 1999, 1/100, "buy"⟩,
       ⟨-5, "stop_loss", 2000, 1999, 1/100, "buy"⟩] := by
  refine ⟨?_, ?_, ?_⟩
  · norm_num [CircuitBreaker.check_halts, CircuitBreaker.check_reset_conditions,
      CircuitBreaker.tradeRiskAmount, CircuitBreaker.resetState, List.take, List.all]
  · norm_num [CircuitBreaker.check_halts, CircuitBreaker.check_reset_conditions,
      CircuitBreaker.tradeRiskAmount, CircuitBreaker.resetState, List.take, List.all]
  · rintro (⟨-, hall⟩ | ⟨t0, ht0, hp, hge⟩)
    · have := hall ⟨-5, "stop_loss", 2000, 1999, 1/100, "buy"⟩ (by simp [List.take])
      norm_num at this
    · simp only [List.head?] at ht0
      injection ht0 with ht0
      subst ht0
      norm_num at hge

/-- C3 (amended): once the halt duration has elapsed, `check_halts` reports
not-halted (and the state machine returns to Running) iff the history has
at least two recorded trades and either the two most recent are both
winners, or the most recent is a winner with positive entry/stop/lot whose
P&L is at least 1.5·R, where R is computed at point value 1.0 per point per
lot (not 100) and must be positive. -/
theorem check_halts_reset_iff (cfg : CBConfig) (st : CBState) (hist : List Trade)
    (dpnl eqy now t0 : ℚ) (hh : st.halted = true) (hs : st.halt_start_time = some t0)
    (he : cfg.halt_duration_minutes ≤ now - t0) :
    ((CircuitBreaker.check_halts cfg st hist dpnl eqy now).2.halted = false ↔
      CircuitBreaker.resetConditionsAmended hist) ∧
    ((CircuitBreaker.check_halts cfg st hist dpnl eqy now).1.halted = false ↔
      CircuitBreaker.resetConditionsAmended hist) := by
  simp only [CircuitBreaker.check_halts, hh, hs]
  rw [if_pos he]
  by_cases hr : CircuitBreaker.check_reset_conditions hist = true
  · rw [if_pos hr]
    have hmem := (check_reset_iff hist).mp hr
    exact ⟨⟨fun _ => hmem, fun _ => rfl⟩, ⟨fun _ => hmem, fun _ => rfl⟩⟩
  · rw [if_neg hr]
    have hnmem : ¬ CircuitBreaker.resetConditionsAmended hist :=
      fun hm => hr ((check_reset_iff hist).mpr hm)
    constructor
    · constructor
      · intro h
        simp at h
      · intro hm
        exact absurd hm hnmem
    · constructor
      · intro h
        rw [hh] at h
        simp at h
      · intro hm
        exact absurd hm hnmem

/-- Witness for the amended C3: two consecutive wins after an expired halt
reset the breaker. -/
theorem check_halts_reset_iff_witness :
    (CircuitBreaker.check_halts {}
      { halted := true, halt_reason := some "3_consecutive_losses",
        halt_start_time := some 0, loss_count := 3,
        adjusted_risk_percent := 1/2, adjusted_confidence_threshold := 75 }
      [⟨7, "take_profit", 2000, 1999, 1/100, "buy"⟩,
       ⟨5, "take_profit", 2000, 1999, 1/100, "buy"⟩]
      0 10000 60).2.halted = false :=
  ((check_halts_reset_iff {}
      { halted := true, halt_reason := some "3_consecutive_losses",
        halt_start_time := some 0, loss_count := 3,
        adjusted_risk_percent := 1/2, adjusted_confidence_threshold := 75 }
      [⟨7, "take_profit", 2000, 1999, 1/100, "buy"⟩,
       ⟨5, "take_profit", 2000, 1999, 1/100, "buy"⟩]
      0 10000 60 0 rfl rfl (by norm_num)).1).mpr
    (by
      refine ⟨by norm_num, Or.inl ?_⟩
      intro t ht
      simp only [List.take, List.mem_cons, List.not_mem_nil, or_false] at ht
      rcases ht with h | h <;> (subst h; norm_num))

/-! ## C7 — RSI characterization and division safety -/

theorem rsiWindow_eq_spec (period : ℕ) (w : List ℚ) :
    rsiWindow period w = rsiSpecWindow period w := by
  unfold rsiWindow rsiSpecWindow
  have hall : ((w.all fun d => decide (d = 0)) = true) ↔ ∀ d ∈ w, d = 0 := by
    rw [List.all_eq_true]
    simp
  have hsum : ((w.filter (fun d => d < 0)).map (fun d => -d)).sum =
      -((w.filter (fun d => d < 0)).sum) := by
    induction w.filter (fun d => d < 0) with
    | nil => simp
    | cons a l ih => simp [ih]; ring
  by_cases h : ∀ d ∈ w, d = 0
  · rw [if_pos (hall.mpr h), if_pos h]
  · rw [if_neg (fun hc => h (hall.mp hc)), if_neg h, hsum]

/-- C7: `calculate_rsi` is empty exactly on histories shorter than
`period + 1`; otherwise it emits, for each trailing window of `period`
deltas, 50 on an all-zero window, 100 on zero average loss, and
`100 − 100/(1 + avg_gain/avg_loss)` otherwise; and in the division branch
the denominators (`period`, `avg_loss`, `1 + avg_gain/avg_loss`) are all
nonzero, so no division by zero occurs for any input. -/
theorem calculate_rsi_spec (prices : List ℚ) (period : ℕ) :
    (prices.length < period + 1 → calculate_rsi prices period = []) ∧
    (period + 1 ≤ prices.length →
      calculate_rsi prices period =
        (List.range (prices.length - period)).map
          (fun k => rsiSpecWindow period
            (((List.zipWith (fun a b => a - b) prices.tail prices).drop k).take period)) ∧
      calculate_rsi prices period ≠ []) ∧
    (∀ w : List ℚ, w.length = period → ¬ (∀ d ∈ w, d = 0) →
      0 < period ∧
      (((-(w.filter (fun d => d < 0)).sum) / period ≠ 0 →
        0 < (-(w.filter (fun d => d < 0)).sum) / period ∧
        0 < 1 + ((w.filter (fun d => 0 < d)).sum / period) /
              ((-(w.filter (fun d => d < 0)).sum) / period)))) := by
  refine ⟨?_, ?_, ?_⟩
  · intro h
    unfold calculate_rsi
    rw [if_pos h]
  · intro h
    have hnp : ¬ prices.length < period + 1 := not_lt.mpr h
    have hlen : (List.zipWith (fun a b : ℚ => a - b) prices.tail prices).length + 1 - period =
        prices.length - period := by
      rw [List.length_zipWith, List.length_tail]
      omega
    constructor
    · unfold calculate_rsi
      rw [if_neg hnp]
      simp only [hlen, rsiWindow_eq_spec]
    · unfold calculate_rsi
      rw [if_neg hnp]
      simp only [hlen, ne_eq, List.map_eq_nil_iff, List.range_eq_nil]
      omega
  · intro w hw hz
    have hne : w ≠ [] := by
      intro hnil
      exact hz (by simp [hnil])
    have hper : 0 < period := by
      rw [← hw]
      exact List.length_pos.mpr hne
    refine ⟨hper, ?_⟩
    intro hlz
    have hperq : (0:ℚ) < (period : ℚ) := by exact_mod_cast hper
    have hlsum : 0 ≤ -(w.filter (fun d => d < 0)).sum := by
      rw [neg_nonneg]
      have h1 : ∀ d ∈ w.filter (fun d => d < 0), d ≤ 0 :=
        fun d hd => le_of_lt (of_decide_eq_true (List.mem_filter.mp hd).2)
      revert h1
      generalize w.filter (fun d => d < 0) = l
      intro h1
      induction l with
      | nil => simp
      | cons a t ih =>
        simp only [List.sum_cons]
        have ha := h1 a (by simp)
        have ht := ih (fun d hd => h1 d (by simp [hd]))
        linarith
    have hgsum : 0 ≤ (w.filter (fun d => 0 < d)).sum :=
      List.sum_nonneg (fun d hd => le_of_lt (of_decide_eq_true (List.mem_filter.mp hd).2))
    have hlpos : 0 < (-(w.filter (fun d => d < 0)).sum) / period := by
      rcases lt_or_eq_of_le hlsum with hlt | heqz
      · exact div_pos hlt hperq
      · exact absurd heqz.symm (fun hc => hlz (by rw [hc]; simp))
    refine ⟨hlpos, ?_⟩
    have hgdiv : 0 ≤ ((w.filter (fun d => 0 < d)).sum / period) /
        ((-(w.filter (fun d => d < 0)).sum) / period) :=
      div_nonneg (div_nonneg hgsum (le_of_lt hperq)) (le_of_lt hlpos)
    linarith

/-- Witness for C7: a two-price history is too short for RSI(2). -/
theorem calculate_rsi_spec_witness : calculate_rsi [1, 2] 2 = [] :=
  (calculate_rsi_spec [1, 2] 2).1 (by norm_num)

/-! ## C6 — momentum reversal is evaluated after TP / time / SL -/

/-- C6 counterexample: a buy position whose last three M1 candles are all
bearish with body ratio 1 (≥ min_body_ratio), but whose price sits past the
computed take-profit: `evaluate_exits` returns `take_profit`, not
`momentum_reversal` — the reversal check does not run ahead of the TP
check. -/
theorem momentum_reversal_priority_counterexample :
    (ExitStrategy.evaluate_exits {} ⟨0, 2000, 1998⟩ 2003
      [⟨2004, 2004, 2003, 2003, 10⟩, ⟨2004, 2004, 2003, 2003, 10⟩,
       ⟨2004, 2004, 2003, 2003, 10⟩] 5).exit_reason = some "take_profit" ∧
    (ExitStrategy.evaluate_exits {} ⟨0, 2000, 1998⟩ 2003
      [⟨2004, 2004, 2003, 2003, 10⟩, ⟨2004, 2004, 2003, 2003, 10⟩,
       ⟨2004, 2004, 2003, 2003, 10⟩] 5).exit_reason ≠ some "momentum_reversal" ∧
    (∀ c ∈ [(⟨2004, 2004, 2003, 2003, 10⟩ : Candle), ⟨2004, 2004, 2003, 2003, 10⟩,
       ⟨2004, 2004, 2003, 2003, 10⟩],
      CandleProcessor.is_bearish c = true ∧
      (55:ℚ)/100 ≤ CandleProcessor.calculate_body_ratio c) := by
  refine ⟨?_, ?_, ?_⟩
  · norm_num [ExitStrategy.evaluate_exits]
  · norm_num [ExitStrategy.evaluate_exits]
    decide
  · intro c hc
    simp only [List.mem_cons, List.not_mem_nil, or_false] at hc
    rcases hc with h | h | h <;>
      (subst h;
       exact ⟨by norm_num [CandleProcessor.is_bearish],
         by norm_num [CandleProcessor.calculate_body_ratio, CandleProcessor.calculate_range,
           CandleProcessor.calculate_body_size]⟩)

/-- C6 (amended): for a buy position whose last three M1 candles are all
bearish (with body ratio ≥ min_body_ratio), `evaluate_exits` returns the
`momentum_reversal` close — provided the take-profit, time-limit and
stop-loss checks, which the source evaluates first, do not fire. -/
theorem momentum_reversal_close (cfg : ExitCfg) (pos : LivePosition)
    (current_price min_body_ratio : ℚ) (m1 : List Candle) (hold : ℚ)
    (hbuy : pos.ptype = 0) (hlen : 3 ≤ m1.length)
    (hbear : ∀ c ∈ m1.drop (m1.length - 3),
      CandleProcessor.is_bearish c = true ∧
      min_body_ratio ≤ CandleProcessor.calculate_body_ratio c)
    (htp : ¬ (pos.price_open + |pos.price_open - pos.sl| * cfg.risk_reward_ratio ≤
      current_price))
    (htime : hold < cfg.time_limit_minutes)
    (hsl : ¬ (current_price ≤ pos.sl)) :
    ExitStrategy.evaluate_exits cfg pos current_price m1 hold =
      ⟨true, "momentum_reversal", "close", some "momentum_reversal", none⟩ := by
  have hall : (m1.drop (m1.length - 3)).all (fun c => CandleProcessor.is_bearish c) = true :=
    List.all_eq_true.mpr (fun c hc => (hbear c hc).1)
  unfold ExitStrategy.evaluate_exits
  simp only [hbuy, if_pos, reduceIte, hall]
  rw [if_neg htp, if_neg (not_le.mpr htime), if_neg hsl, if_pos ⟨hlen, trivial⟩]

/-- Witness for the amended C6: with TP not reached, hold below the limit
and SL not hit, three bearish candles close the buy as momentum_reversal. -/
theorem momentum_reversal_close_witness :
    ExitStrategy.evaluate_exits {} ⟨0, 2000, 1998⟩ 2001
      [⟨2004, 2004, 2003, 2003, 10⟩, ⟨2004, 2004, 2003, 2003, 10⟩,
       ⟨2004, 2004, 2003, 2003, 10⟩] 5 =
      ⟨true, "momentum_reversal", "close", some "momentum_reversal", none⟩ :=
  momentum_reversal_close {} ⟨0, 2000, 1998⟩ 2001 (55/100)
    [⟨2004, 2004, 2003, 2003, 10⟩, ⟨2004, 2004, 2003, 2003, 10⟩,
     ⟨2004, 2004, 2003, 2003, 10⟩] 5 rfl (by norm_num)
    (by
      intro c hc
      simp only [List.drop, List.mem_cons, List.not_mem_nil, or_false] at hc
      rcases hc with h | h | h <;>
        (subst h;
         exact ⟨by norm_num [CandleProcessor.is_bearish],
           by norm_num [CandleProcessor.calculate_body_ratio, CandleProcessor.calculate_range,
             CandleProcessor.calculate_body_size]⟩))
    (by norm_num) (by norm_num) (by norm_num)

/-! ## C5 — the stage-2 strength gate -/

/-- C5 (amended): when stage 2 is not skipped (skip disabled, or the winning
stage-1 score below `stage1_strong_threshold`), a non-none direction implies
`current_body_size ≥ eff · avg(last 5 body sizes)` or
`current_volume ≥ volume_multiplier · avg(last 5 volumes)`, where `eff` is
the source's effective size multiplier: the configured value below 1.0 and
above 1.1, but the lenient constant 0.95 for configured values in
[1.0, 1.1]. -/
theorem momentum_stage2_strength_gate (cfg : MomCfg) (candles : List Candle)
    (prev cur : Candle) (h6 : 6 ≤ candles.length)
    (h2 : candles.drop (candles.length - 2) = [prev, cur])
    (hlast : candles.getLast? = some cur)
    (hskip : cfg.skip_stage2_if_strong = false ∨
      max (MomentumAnalyzer.candleScore cfg (6/10) true cur +
           MomentumAnalyzer.candleScore cfg (4/10) true prev)
          (MomentumAnalyzer.candleScore cfg (6/10) false cur +
           MomentumAnalyzer.candleScore cfg (4/10) false prev) <
        cfg.stage1_strong_threshold)
    (hdir : (MomentumAnalyzer.analyze_two_stage_momentum cfg candles).direction ≠ "none") :
    (((MomentumAnalyzer.last5 candles).map CandleProcessor.calculate_body_size).sum /
        (MomentumAnalyzer.last5 candles).length) * MomentumAnalyzer.effectiveSizeMultiplier cfg ≤
      CandleProcessor.calculate_body_size cur ∨
    (((MomentumAnalyzer.last5 candles).map Candle.volume).sum /
        (MomentumAnalyzer.last5 candles).length) * cfg.volume_spike_multiplier ≤
      cur.volume := by
  have h5 : ¬ candles.length < 5 := by omega
  have hskipfalse : ¬ (cfg.skip_stage2_if_strong = true ∧
      cfg.stage1_strong_threshold ≤
        max (MomentumAnalyzer.candleScore cfg (6/10) true cur +
             MomentumAnalyzer.candleScore cfg (4/10) true prev)
            (MomentumAnalyzer.candleScore cfg (6/10) false cur +
             MomentumAnalyzer.candleScore cfg (4/10) false prev)) := by
    rcases hskip with h | h
    · rintro ⟨hc, -⟩
      rw [h] at hc
      cases hc
    · rintro ⟨-, hc⟩
      exact absurd hc (not_le.mpr h)
  unfold MomentumAnalyzer.analyze_two_stage_momentum at hdir
  rw [if_neg h5, h2, hlast] at hdir
  simp only at hdir
  split at hdir <;> try exact absurd rfl hdir
  split at hdir <;> try exact absurd rfl hdir
  rename_i heqs2
  rw [if_neg hskipfalse, if_pos h6] at heqs2
  have hlt : ¬ (List.take 5 (List.drop (candles.length - 6) candles)).length < 1 := by
    rw [List.length_take, List.length_drop]
    omega
  rw [if_neg hlt] at heqs2
  injection heqs2 with heqs2
  rw [Bool.or_eq_true] at heqs2
  rcases heqs2 with hsize | hspike
  · left
    unfold MomentumAnalyzer.sizeCheck at hsize
    unfold MomentumAnalyzer.effectiveSizeMultiplier MomentumAnalyzer.last5
    split at hsize
    · rename_i hm
      rw [if_pos hm]
      exact of_decide_eq_true hsize
    · rename_i hm1
      split at hsize
      · rename_i hm2
        rw [if_neg hm1, if_pos hm2]
        exact of_decide_eq_true hsize
      · rename_i hm2
        rw [if_neg hm1, if_neg hm2]
        exact of_decide_eq_true hsize
  · right
    unfold MomentumAnalyzer.check_volume_spike_stage2 at hspike
    rw [if_neg (by omega : ¬ candles.length < 6)] at hspike
    simp only at hspike
    split at hspike
    · cases hspike
    · have hle := of_decide_eq_true hspike
      rw [hlast] at hle
      simp only [Option.map_some, Option.getD_some, List.length_map] at hle
      unfold MomentumAnalyzer.last5
      exact hle

/-- C5 counterexample: with `size_multiplier = 1.1` (in the lenient band),
five prior candles of body 1 and volume 100 and a current candle of body 1
and volume 10: stage 2 passes via the 0.95 leniency and the analyzer emits
`buy`, although the current body is NOT ≥ 1.1 × the average body and the
current volume is NOT ≥ 1.3 × the average volume — the claim's gate, taken
at the configured multiplier, is violated. -/
theorem stage2_lenient_band_counterexample :
    (MomentumAnalyzer.analyze_two_stage_momentum { size_multiplier := 11/10 }
      [⟨100, 101, 100, 101, 100⟩, ⟨100, 101, 100, 101, 100⟩, ⟨100, 101, 100, 101, 100⟩,
       ⟨100, 101, 100, 101, 100⟩, ⟨100, 101, 100, 101, 100⟩,
       ⟨100, 101, 100, 101, 10⟩]).direction = "buy" ∧
    ({ size_multiplier := 11/10 } : MomCfg).skip_stage2_if_strong = false ∧
    ¬ ((((MomentumAnalyzer.last5
        [⟨100, 101, 100, 101, 100⟩, ⟨100, 101, 100, 101, 100⟩, ⟨100, 101, 100, 101, 100⟩,
         ⟨100, 101, 100, 101, 100⟩, ⟨100, 101, 100, 101, 100⟩,
         ⟨100, 101, 100, 101, 10⟩]).map CandleProcessor.calculate_body_size).sum /
          (MomentumAnalyzer.last5
        [⟨100, 101, 100, 101, 100⟩, ⟨100, 101, 100, 101, 100⟩, ⟨100, 101, 100, 101, 100⟩,
         ⟨100, 101, 100, 101, 100⟩, ⟨100, 101, 100, 101, 100⟩,
         ⟨100, 101, 100, 101, 10⟩]).length) *
        ({ size_multiplier := 11/10 } : MomCfg).size_multiplier ≤
        CandleProcessor.calculate_body_size ⟨100, 101, 100, 101, 10⟩) ∧
    ¬ ((((MomentumAnalyzer.last5
        [⟨100, 101, 100, 101, 100⟩, ⟨100, 101, 100, 101, 100⟩, ⟨100, 101, 100, 101, 100⟩,
         ⟨100, 101, 100, 101, 100⟩, ⟨100, 101, 100, 101, 100⟩,
         ⟨100, 101, 100, 101, 10⟩]).map Candle.volume).sum /
          (MomentumAnalyzer.last5
        [⟨100, 101, 100, 101, 100⟩, ⟨100, 101, 100, 101, 100⟩, ⟨100, 101, 100, 101, 100⟩,
         ⟨100, 101, 100, 101, 100⟩, ⟨100, 101, 100, 101, 100⟩,
         ⟨100, 101, 100, 101, 10⟩]).length) *
        ({ size_multiplier := 11/10 } : MomCfg).volume_spike_multiplier ≤
        (Candle.volume ⟨100, 101, 100, 101, 10⟩ : ℚ)) := by
  refine ⟨?_, rfl, ?_, ?_⟩
  · norm_num [MomentumAnalyzer.analyze_two_stage_momentum, MomentumAnalyzer.noneOut,
      MomentumAnalyzer.candleScore, MomentumAnalyzer.sizeCheck,
      MomentumAnalyzer.check_volume_spike_stage2,
      CandleProcessor.calculate_body_ratio, CandleProcessor.calculate_body_size,
      CandleProcessor.calculate_range, CandleProcessor.is_bullish, CandleProcessor.is_bearish,
      CandleProcessor.calculate_wick_ratio, CandleProcessor.calculate_max_wick,
      CandleProcessor.calculate_upper_wick, CandleProcessor.calculate_lower_wick,
      List.getLast?]
  · norm_num [MomentumAnalyzer.last5, CandleProcessor.calculate_body_size]
  · norm_num [MomentumAnalyzer.last5]

/-- Witness for the amended C5 at the default configuration: a current body
twice the prior average passes stage 2, and the size inequality at the
effective multiplier holds. -/
theorem momentum_stage2_strength_gate_witness :
    (((MomentumAnalyzer.last5
        [⟨100, 101, 100, 101, 100⟩, ⟨100, 101, 100, 101, 100⟩, ⟨100, 101, 100, 101, 100⟩,
         ⟨100, 101, 100, 101, 100⟩, ⟨100, 101, 100, 101, 100⟩,
         ⟨100, 102, 100, 102, 100⟩]).map CandleProcessor.calculate_body_size).sum /
        (MomentumAnalyzer.last5
        [⟨100, 101, 100, 101, 100⟩, ⟨100, 101, 100, 101, 100⟩, ⟨100, 101, 100, 101, 100⟩,
         ⟨100, 101, 100, 101, 100⟩, ⟨100, 101, 100, 101, 100⟩,
         ⟨100, 102, 100, 102, 100⟩]).length) *
      MomentumAnalyzer.effectiveSizeMultiplier {} ≤
      CandleProcessor.calculate_body_size ⟨100, 102, 100, 102, 100⟩ ∨
    (((MomentumAnalyzer.last5
        [⟨100, 101, 100, 101, 100⟩, ⟨100, 101, 100, 101, 100⟩, ⟨100, 101, 100, 101, 100⟩,
         ⟨100, 101, 100, 101, 100⟩, ⟨100, 101, 100, 101, 100⟩,
         ⟨100, 102, 100, 102, 100⟩]).map Candle.volume).sum /
        (MomentumAnalyzer.last5
        [⟨100, 101, 100, 101, 100⟩, ⟨100, 101, 100, 101, 100⟩, ⟨100, 101, 100, 101, 100⟩,
         ⟨100, 101, 100, 101, 100⟩, ⟨100, 101, 100, 101, 100⟩,
         ⟨100, 102, 100, 102, 100⟩]).length) *
      ({} : MomCfg).volume_spike_multiplier ≤
      Candle.volume ⟨100, 102, 100, 102, 100⟩ :=
  momentum_stage2_strength_gate {}
    [⟨100, 101, 100, 101, 100⟩, ⟨100, 101, 100, 101, 100⟩, ⟨100, 101, 100, 101, 100⟩,
     ⟨100, 101, 100, 101, 100⟩, ⟨100, 101, 100, 101, 100⟩, ⟨100, 102, 100, 102, 100⟩]
    ⟨100, 101, 100, 101, 100⟩ ⟨100, 102, 100, 102, 100⟩
    (by norm_num) rfl rfl (Or.inl rfl)
    (by
      norm_num [MomentumAnalyzer.analyze_two_stage_momentum, MomentumAnalyzer.noneOut,
        MomentumAnalyzer.candleScore, MomentumAnalyzer.sizeCheck,
        MomentumAnalyzer.check_volume_spike_stage2,
        CandleProcessor.calculate_body_ratio, CandleProcessor.calculate_body_size,
        CandleProcessor.calculate_range, CandleProcessor.is_bullish,
        CandleProcessor.is_bearish, CandleProcessor.calculate_wick_ratio,
        CandleProcessor.calculate_max_wick, CandleProcessor.calculate_upper_wick,
        CandleProcessor.calculate_lower_wick, List.getLast?]
      decide)

/-! ## C2 — sizing bounds and the 2%-risk cap -/

theorem hardCap_le (x : ℚ) : PositionSizer.hardCap x ≤ 1/10 := by
  unfold PositionSizer.hardCap
  split
  · exact le_refl _
  · rename_i h
    exact le_of_not_lt h

theorem clampRound_ge (min_lot max_lot x : ℚ) :
    min_lot ≤ PositionSizer.clampRound min_lot max_lot x :=
  le_max_left _ _

theorem roundLots_eq_round2 {min_lot : ℚ} (hminlo : 1/100 ≤ min_lot) (x : ℚ) :
    PositionSizer.roundLots min_lot x = round2 x :=
  if_neg (not_lt.mpr hminlo)

theorem clampRound_le_cap {min_lot max_lot x : ℚ} (hminlo : 1/100 ≤ min_lot)
    (hminhi : min_lot ≤ 1/10) (hmm : min_lot ≤ max_lot)
    (hgrid : ∃ k : ℤ, max_lot = (k : ℚ)/100) (hx : x ≤ 1/10) :
    PositionSizer.clampRound min_lot max_lot x ≤ min max_lot (1/10) := by
  unfold PositionSizer.clampRound
  rw [roundLots_eq_round2 hminlo]
  have h1 : max min_lot (min x max_lot) ≤ min max_lot (1/10) := by
    apply max_le (le_min hmm hminhi)
    exact le_min (min_le_right _ _) (le_trans (min_le_left _ _) hx)
  have hmingrid : ∃ k : ℤ, min max_lot (1/10) = (k : ℚ)/100 := by
    obtain ⟨k, hk⟩ := hgrid
    rcases le_total max_lot (1/10) with hle | hle
    · exact ⟨k, by rw [min_eq_left hle, hk]⟩
    · exact ⟨10, by rw [min_eq_right hle]; norm_num⟩
  have h2 : round2 (max min_lot (min x max_lot)) ≤ min max_lot (1/10) := by
    calc round2 (max min_lot (min x max_lot)) ≤ round2 (min max_lot (1/10)) := round2_mono h1
    _ = min max_lot (1/10) := round2_grid hmingrid
  exact max_le (le_min hmm hminhi) h2

theorem clampRound_le_tgt {min_lot : ℚ} (max_lot : ℚ) (hminlo : 1/100 ≤ min_lot) (x : ℚ) :
    PositionSizer.clampRound min_lot max_lot x ≤ max min_lot x + 1/200 := by
  unfold PositionSizer.clampRound
  rw [roundLots_eq_round2 hminlo]
  have h1 : max min_lot (min x max_lot) ≤ max min_lot x :=
    max_le (le_max_left _ _) (le_trans (min_le_left _ _) (le_max_right _ _))
  have h2 := round2_le (max min_lot (min x max_lot))
  have h3 : round2 (max min_lot (min x max_lot)) ≤ max min_lot x + 1/200 := by linarith
  exact max_le (by linarith [le_max_left min_lot x]) h3

/-- C2 (amended): for positive equity, risk percent and stop distance, and a
sane lot configuration (0.01 ≤ min_lot ≤ min(max_lot, 0.10), max_lot a
whole number of 0.01 steps — the defaults 0.01/0.30 qualify), the computed
lot satisfies `min_lot ≤ lot ≤ min(max_lot, 0.10)`; the actual risk,
however, is only bounded by 2% UP TO the final rounding half-step and the
minimum-lot floor: `lot ≤ max(min_lot, 0.02·equity/(d·v)) + 0.005`,
i.e. actual risk ≤ max(min-lot risk, 2%) + (0.005·d·v/equity)·100. -/
theorem calculate_lot_size_bounds (min_lot max_lot equity risk_percent d : ℚ)
    (hminlo : 1/100 ≤ min_lot) (hminhi : min_lot ≤ 1/10) (hmm : min_lot ≤ max_lot)
    (hgrid : ∃ k : ℤ, max_lot = (k : ℚ)/100)
    (he : 0 < equity) (hr : 0 < risk_percent) (hd : 0 < d) :
    min_lot ≤ PositionSizer.calculate_lot_size min_lot max_lot equity risk_percent d ∧
    PositionSizer.calculate_lot_size min_lot max_lot equity risk_percent d ≤
      min max_lot (1/10) ∧
    PositionSizer.calculate_lot_size min_lot max_lot equity risk_percent d ≤
      max min_lot (equity * (2/100) / (d * 100)) + 1/200 ∧
    PositionSizer.calculate_lot_size min_lot max_lot equity risk_percent d *
        d * 100 / equity * 100 ≤
      max (min_lot * d * 100 / equity * 100) 2 + d * 100 / equity * (1/2) := by
  have hng : ¬ (equity ≤ 0 ∨ risk_percent ≤ 0 ∨ d ≤ 0) := by
    push_neg
    exact ⟨he, hr, hd⟩
  have hpv : ¬ (d * PositionSizer.point_value_per_lot = 0) := by
    unfold PositionSizer.point_value_per_lot
    positivity
  have hd100 : (0:ℚ) < d * 100 := by positivity
  unfold PositionSizer.calculate_lot_size
  rw [if_neg hng, if_neg hpv]
  unfold PositionSizer.point_value_per_lot
  set L3 := PositionSizer.clampRound min_lot max_lot
    (PositionSizer.hardCap (equity * (risk_percent / 100) / (d * 100))) with hL3
  set x2 := equity * (2 / 100) / (d * 100) with hx2
  have hL3lo : min_lot ≤ L3 := clampRound_ge _ _ _
  have hL3cap : L3 ≤ min max_lot (1/10) :=
    clampRound_le_cap hminlo hminhi hmm hgrid (hardCap_le _)
  have hx2c : x2 * (d * 10000 / equity) = 2 := by
    rw [hx2]
    field_simp
    ring
  by_cases hviol : L3 * d * 100 / equity * 100 > 2
  · rw [if_pos hviol]
    have h1 : 2 * equity < L3 * d * 10000 := by
      have heq : L3 * d * 100 / equity * 100 = L3 * d * 10000 / equity := by ring
      rw [gt_iff_lt, heq, lt_div_iff₀ he] at hviol
      linarith
    have hx2lt : x2 < L3 := by
      rw [hx2, div_lt_iff₀ hd100]
      linarith
    have hx2le : x2 ≤ 1/10 :=
      le_trans (le_of_lt hx2lt) (le_trans hL3cap (min_le_right _ _))
    have hup : PositionSizer.clampRound min_lot max_lot x2 ≤ min max_lot (1/10) :=
      clampRound_le_cap hminlo hminhi hmm hgrid hx2le
    have htgt : PositionSizer.clampRound min_lot max_lot x2 ≤ max min_lot x2 + 1/200 :=
      clampRound_le_tgt _ hminlo _
    refine ⟨clampRound_ge _ _ _, hup, htgt, ?_⟩
    have hc : (0:ℚ) ≤ d * 10000 / equity := by positivity
    calc PositionSizer.clampRound min_lot max_lot x2 * d * 100 / equity * 100
        = PositionSizer.clampRound min_lot max_lot x2 * (d * 10000 / equity) := by ring
      _ ≤ (max min_lot x2 + 1/200) * (d * 10000 / equity) :=
          mul_le_mul_of_nonneg_right htgt hc
      _ = max min_lot x2 * (d * 10000 / equity) + (1/200) * (d * 10000 / equity) := by ring
      _ = max (min_lot * (d * 10000 / equity)) (x2 * (d * 10000 / equity)) +
            (1/200) * (d * 10000 / equity) := by rw [max_mul_of_nonneg _ _ hc]
      _ = max (min_lot * d * 100 / equity * 100) 2 + d * 100 / equity * (1/2) := by
          rw [hx2c]
          have harg : min_lot * (d * 10000 / equity) = min_lot * d * 100 / equity * 100 := by
            ring
          rw [harg]
          ring
  · rw [if_neg hviol]
    push_neg at hviol
    have h1 : L3 * d * 10000 ≤ 2 * equity := by
      have heq : L3 * d * 100 / equity * 100 = L3 * d * 10000 / equity := by ring
      rw [heq, div_le_iff₀ he] at hviol
      linarith
    have hL3x2 : L3 ≤ x2 := by
      rw [hx2, le_div_iff₀ hd100]
      linarith
    refine ⟨hL3lo, hL3cap, ?_, ?_⟩
    · exact le_trans hL3x2 (by linarith [le_max_right min_lot x2])
    · have hterm : (0:ℚ) ≤ d * 100 / equity * (1/2) := by positivity
      have h2max : (2:ℚ) ≤ max (min_lot * d * 100 / equity * 100) 2 := le_max_right _ _
      linarith

/-- C2 counterexample: at equity 2491.5, risk 2% and a 33-point stop
(all positive, default lot bounds), the sizer rounds 0.0151 lots up to 0.02
— in the first pass and again in the 2%-safety recomputation — and returns
a lot whose actual risk is ≈2.65% > 2.00%. -/
theorem calculate_lot_size_risk_cap_counterexample :
    (0:ℚ) < 4983/2 ∧ (0:ℚ) < 2 ∧ (0:ℚ) < 33 ∧
    PositionSizer.calculate_lot_size (1/100) (3/10) (4983/2) 2 33 = 2/100 ∧
    2 < PositionSizer.calculate_lot_size (1/100) (3/10) (4983/2) 2 33 *
          33 * 100 / (4983/2) * 100 := by
  have h : PositionSizer.calculate_lot_size (1/100) (3/10) (4983/2) 2 33 = 2/100 := by
    norm_num [PositionSizer.calculate_lot_size, PositionSizer.clampRound,
      PositionSizer.hardCap, PositionSizer.roundLots, PositionSizer.point_value_per_lot,
      round2, roundHalfEven]
  refine ⟨by norm_num, by norm_num, by norm_num, h, ?_⟩
  rw [h]
  norm_num

/-- Witness for the amended C2 at the spec's own sizing scenario
(equity 10000, risk 0.5%, stop 33 points, default lot bounds). -/
theorem calculate_lot_size_bounds_witness :
    (1:ℚ)/100 ≤ PositionSizer.calculate_lot_size (1/100) (3/10) 10000 (1/2) 33 ∧
    PositionSizer.calculate_lot_size (1/100) (3/10) 10000 (1/2) 33 ≤ min (3/10) (1/10) ∧
    PositionSizer.calculate_lot_size (1/100) (3/10) 10000 (1/2) 33 ≤
      max (1/100) (10000 * (2/100) / (33 * 100)) + 1/200 ∧
    PositionSizer.calculate_lot_size (1/100) (3/10) 10000 (1/2) 33 * 33 * 100 / 10000 * 100 ≤
      max ((1:ℚ)/100 * 33 * 100 / 10000 * 100) 2 + 33 * 100 / 10000 * (1/2) :=
  calculate_lot_size_bounds (1/100) (3/10) 10000 (1/2) 33
    (by norm_num) (by norm_num) (by norm_num) ⟨30, by norm_num⟩
    (by norm_num) (by norm_num) (by norm_num)

/-! ## C4 — SL takes precedence over TP in the backtest close loop -/

theorem lookup_mem {l : List (ℕ × BPos)} {a : ℕ} {b : BPos} (h : l.lookup a = some b) :
    (a, b) ∈ l := by
  induction l with
  | nil => cases h
  | cons q qs ih =>
    rcases q with ⟨k, v⟩
    rw [List.lookup_cons] at h
    by_cases hb : a = k
    · subst hb
      simp only [beq_self_eq_true] at h
      injection h with h
      subst h
      exact List.mem_cons_self _ _
    · have hbeq : (a == k) = false := by
        simp [hb]
      rw [hbeq] at h
      exact List.mem_cons_of_mem _ (ih h)

theorem lookup_filterKey {l : List (ℕ × BPos)} {t k : ℕ} (hne : t ≠ k) :
    (l.filter (fun q => q.1 ≠ k)).lookup t = l.lookup t := by
  induction l with
  | nil => rfl
  | cons q qs ih =>
    rcases q with ⟨a, v⟩
    by_cases hak : a = k
    · subst hak
      have h1 : (List.filter (fun q => decide (q.1 ≠ a)) ((a, v) :: qs)) =
          List.filter (fun q => decide (q.1 ≠ a)) qs := by
        rw [List.filter_cons]
        simp
      have h2 : List.lookup t ((a, v) :: qs) = List.lookup t qs := by
        rw [List.lookup_cons]
        have : (t == a) = false := by simp [hne]
        rw [this]
      rw [h1, h2]
      exact ih
    · have h1 : (List.filter (fun q => decide (q.1 ≠ k)) ((a, v) :: qs)) =
          (a, v) :: List.filter (fun q => decide (q.1 ≠ k)) qs := by
        rw [List.filter_cons]
        simp [hak]
      rw [h1, List.lookup_cons, List.lookup_cons]
      by_cases hta : t = a
      · subst hta
        simp only [beq_self_eq_true]
      · have : (t == a) = false := by simp [hta]
        rw [this]
        exact ih

theorem lookup_of_mem_nodup {l : List (ℕ × BPos)} {t : ℕ} {p : BPos}
    (hnd : (l.map Prod.fst).Nodup) (hmem : (t, p) ∈ l) : l.lookup t = some p := by
  induction l with
  | nil => cases hmem
  | cons q qs ih =>
    rcases List.mem_cons.mp hmem with heq | hmem'
    · rw [← heq, List.lookup_cons]
      simp only [beq_self_eq_true]
    · rcases q with ⟨a, v⟩
      have hnodup : a ∉ (qs.map Prod.fst) ∧ (qs.map Prod.fst).Nodup := by
        rw [List.map_cons, List.nodup_cons] at hnd
        exact hnd
      have hat : t ≠ a := by
        intro hc
        subst hc
        exact hnodup.1 (List.mem_map.mpr ⟨(t, p), hmem', rfl⟩)
      rw [List.lookup_cons]
      have : (t == a) = false := by simp [hat]
      rw [this]
      exact ih hnodup.2 hmem'

theorem closeFold_not_mem (entries : List (ℕ × ℚ × String)) (op : List (ℕ × BPos))
    (cl : List ClosedTrade) (t : ℕ) (hop : ∀ q ∈ op, q.1 ≠ t) :
    ((entries.foldl BacktestOrderExecutor.closeStep (op, cl)).2.filter
        (fun c => c.ticket = t)) = cl.filter (fun c => c.ticket = t) ∧
    ∀ q ∈ (entries.foldl BacktestOrderExecutor.closeStep (op, cl)).1, q.1 ≠ t := by
  induction entries generalizing op cl with
  | nil => exact ⟨rfl, hop⟩
  | cons e es ih =>
    rw [List.foldl_cons]
    cases hl : op.lookup e.1 with
    | none =>
      have hstep : BacktestOrderExecutor.closeStep (op, cl) e = (op, cl) := by
        unfold BacktestOrderExecutor.closeStep BacktestOrderExecutor.close_position
        rw [hl]
      rw [hstep]
      exact ih op cl hop
    | some pe =>
      have hkey : e.1 ≠ t := hop (e.1, pe) (lookup_mem hl)
      have hstep : BacktestOrderExecutor.closeStep (op, cl) e =
          (op.filter (fun q => q.1 ≠ e.1),
           cl ++ [BacktestOrderExecutor.mkClosed e.1 pe e.2.1 e.2.2]) := by
        unfold BacktestOrderExecutor.closeStep BacktestOrderExecutor.close_position
        rw [hl]
      rw [hstep]
      have hop' : ∀ q ∈ op.filter (fun q => q.1 ≠ e.1), q.1 ≠ t :=
        fun q hq => hop q (List.mem_of_mem_filter hq)
      obtain ⟨h1, h2⟩ := ih _ _ hop'
      refine ⟨?_, h2⟩
      rw [h1, List.filter_append]
      have hnil : [BacktestOrderExecutor.mkClosed e.1 pe e.2.1 e.2.2].filter
          (fun c => c.ticket = t) = [] := by
        simp [BacktestOrderExecutor.mkClosed, hkey]
      rw [hnil, List.append_nil]

theorem closeFold_first (entries : List (ℕ × ℚ × String)) (op : List (ℕ × BPos))
    (cl : List ClosedTrade) (t : ℕ) (p : BPos) (px : ℚ) (rsn : String)
    (hnd : (op.map Prod.fst).Nodup)
    (hlk : op.lookup t = some p)
    (hfind : entries.find? (fun e => e.1 == t) = some (t, px, rsn)) :
    ((entries.foldl BacktestOrderExecutor.closeStep (op, cl)).2.filter
        (fun c => c.ticket = t)) =
      cl.filter (fun c => c.ticket = t) ++ [BacktestOrderExecutor.mkClosed t p px rsn] := by
  induction entries generalizing op cl with
  | nil => cases hfind
  | cons e es ih =>
    rw [List.foldl_cons]
    by_cases hbeq : e.1 = t
    · have hfind' := hfind
      rw [List.find?_cons_of_pos _ (by simp [hbeq])] at hfind'
      injection hfind' with hfind'
      subst hfind'
      have hstep : BacktestOrderExecutor.closeStep (op, cl) (t, px, rsn) =
          (op.filter (fun q => q.1 ≠ t),
           cl ++ [BacktestOrderExecutor.mkClosed t p px rsn]) := by
        unfold BacktestOrderExecutor.closeStep BacktestOrderExecutor.close_position
        rw [hlk]
      rw [hstep]
      have hop' : ∀ q ∈ op.filter (fun q => q.1 ≠ t), q.1 ≠ t :=
        fun q hq => of_decide_eq_true (List.mem_filter.mp hq).2
      obtain ⟨h1, -⟩ := closeFold_not_mem es _ _ t hop'
      rw [h1, List.filter_append]
      have hone : [BacktestOrderExecutor.mkClosed t p px rsn].filter
          (fun c => c.ticket = t) = [BacktestOrderExecutor.mkClosed t p px rsn] := by
        simp [BacktestOrderExecutor.mkClosed]
      rw [hone]
    · have hfind' := hfind
      rw [List.find?_cons_of_neg _ (by simp [hbeq])] at hfind'
      cases hl : op.lookup e.1 with
      | none =>
        have hstep : BacktestOrderExecutor.closeStep (op, cl) e = (op, cl) := by
          unfold BacktestOrderExecutor.closeStep BacktestOrderExecutor.close_position
          rw [hl]
        rw [hstep]
        exact ih _ _ hnd hlk hfind'
      | some pe =>
        have hstep : BacktestOrderExecutor.closeStep (op, cl) e =
            (op.filter (fun q => q.1 ≠ e.1),
             cl ++ [BacktestOrderExecutor.mkClosed e.1 pe e.2.1 e.2.2]) := by
          unfold BacktestOrderExecutor.closeStep BacktestOrderExecutor.close_position
          rw [hl]
        rw [hstep]
        have hnd' : ((op.filter (fun q => q.1 ≠ e.1)).map Prod.fst).Nodup :=
          (((List.filter_sublist op).map Prod.fst).nodup hnd)
        have hlk' : (op.filter (fun q => q.1 ≠ e.1)).lookup t = some p := by
          rw [lookup_filterKey (fun hc => hbeq hc.symm)]
          exact hlk
        rw [ih _ _ hnd' hlk' hfind', List.filter_append]
        have hnil : [BacktestOrderExecutor.mkClosed e.1 pe e.2.1 e.2.2].filter
            (fun c => c.ticket = t) = [] := by
          simp [BacktestOrderExecutor.mkClosed, hbeq]
        rw [hnil, List.append_nil]

theorem find_toClose (candle : Candle) (positions : List (ℕ × BPos)) (t : ℕ) (p : BPos)
    (hnd : (positions.map Prod.fst).Nodup) (hmem : (t, p) ∈ positions)
    (hsl : if p.ptype = 0 then candle.low ≤ p.sl else p.sl ≤ candle.high)
    (htp : if p.ptype = 0 then p.tp ≤ candle.high else candle.low ≤ p.tp) :
    (BacktestOrderExecutor.toCloseEntries candle positions).find? (fun e => e.1 == t) =
      some (t, p.sl, "stop_loss") := by
  induction positions with
  | nil => cases hmem
  | cons q qs ih =>
    unfold BacktestOrderExecutor.toCloseEntries
    rw [List.flatMap_cons, List.find?_append]
    rcases List.mem_cons.mp hmem with heq | hmem'
    · subst heq
      by_cases hb : p.ptype = 0
      · rw [if_pos hb] at hsl htp
        simp only [hb, reduceIte]
        rw [if_pos hsl, if_pos htp, List.singleton_append,
          List.find?_cons_of_pos _ (by simp)]
        rfl
      · rw [if_neg hb] at hsl htp
        simp only [if_neg hb]
        rw [if_pos hsl, if_pos htp, List.singleton_append,
          List.find?_cons_of_pos _ (by simp)]
        rfl
    · rcases q with ⟨a, v⟩
      have hnodup : a ∉ (qs.map Prod.fst) ∧ (qs.map Prod.fst).Nodup := by
        rw [List.map_cons, List.nodup_cons] at hnd
        exact hnd
      have hat : a ≠ t := by
        intro hc
        subst hc
        exact hnodup.1 (List.mem_map.mpr ⟨(a, p), hmem', rfl⟩)
      have hmemblock : ∀ x ∈ ((if v.ptype = 0 then
            (if candle.low ≤ v.sl then [(a, v.sl, "stop_loss")] else [])
          else
            (if v.sl ≤ candle.high then [(a, v.sl, "stop_loss")] else [])) ++
          (if v.ptype = 0 then
            (if v.tp ≤ candle.high then [(a, v.tp, "take_profit")] else [])
          else
            (if candle.low ≤ v.tp then [(a, v.tp, "take_profit")] else []))),
          x.1 = a := by
        intro x hx
        rcases List.mem_append.mp hx with h | h <;>
          (split at h <;> split at h) <;>
          first
          | (rw [List.mem_singleton] at h
             subst h
             rfl)
          | exact absurd h (List.not_mem_nil x)
      have hblock : (((if v.ptype = 0 then
            (if candle.low ≤ v.sl then [(a, v.sl, "stop_loss")] else [])
          else
            (if v.sl ≤ candle.high then [(a, v.sl, "stop_loss")] else [])) ++
          (if v.ptype = 0 then
            (if v.tp ≤ candle.high then [(a, v.tp, "take_profit")] else [])
          else
            (if candle.low ≤ v.tp then [(a, v.tp, "take_profit")] else []))).find?
            (fun e => e.1 == t)) = none := by
        apply List.find?_eq_none.mpr
        intro x hx
        simp [hmemblock x hx, hat]
      rw [hblock, Option.none_or]
      exact ih hnodup.2 hmem'

/-- C4: in the backtest executor, an open position whose stop loss AND take
profit are both crossed by the current candle is closed exactly once, at the
stop-loss price, with exit reason `stop_loss`: the SL entry is queued before
the TP entry for the same ticket, and the second `close_position` call finds
the ticket already removed and is a no-op. -/
theorem backtest_sl_precedence (candle : Candle) (bid ask : ℚ)
    (positions : List (ℕ × BPos)) (t : ℕ) (p : BPos)
    (hnd : (positions.map Prod.fst).Nodup)
    (hmem : (t, p) ∈ positions)
    (hsl : if p.ptype = 0 then candle.low ≤ p.sl else p.sl ≤ candle.high)
    (htp : if p.ptype = 0 then p.tp ≤ candle.high else candle.low ≤ p.tp) :
    ((BacktestOrderExecutor.update_positions candle bid ask positions).2.filter
        (fun c => c.ticket = t)).length = 1 ∧
    ∀ c ∈ (BacktestOrderExecutor.update_positions candle bid ask positions).2,
      c.ticket = t → c.exit_price = p.sl ∧ c.exit_reason = "stop_loss" := by
  set p' := BacktestOrderExecutor.updateProfit bid ask p with hp'
  have hfields : p'.ptype = p.ptype ∧ p'.sl = p.sl ∧ p'.tp = p.tp := by
    rw [hp']
    unfold BacktestOrderExecutor.updateProfit
    split <;> exact ⟨rfl, rfl, rfl⟩
  set P := positions.map (fun q => (q.1, BacktestOrderExecutor.updateProfit bid ask q.2))
    with hP
  have hkeys : P.map Prod.fst = positions.map Prod.fst := by
    rw [hP, List.map_map]
    rfl
  have hndP : (P.map Prod.fst).Nodup := by
    rw [hkeys]
    exact hnd
  have hmemP : (t, p') ∈ P := by
    rw [hP]
    exact List.mem_map.mpr ⟨(t, p), hmem, rfl⟩
  have hslP : if p'.ptype = 0 then candle.low ≤ p'.sl else p'.sl ≤ candle.high := by
    rw [hfields.1, hfields.2.1]
    exact hsl
  have htpP : if p'.ptype = 0 then p'.tp ≤ candle.high else candle.low ≤ p'.tp := by
    rw [hfields.1, hfields.2.2]
    exact htp
  have hfind := find_toClose candle P t p' hndP hmemP hslP htpP
  have hlk := lookup_of_mem_nodup hndP hmemP
  have hmain := closeFold_first (BacktestOrderExecutor.toCloseEntries candle P) P [] t p'
    p'.sl "stop_loss" hndP hlk hfind
  have hupd : BacktestOrderExecutor.update_positions candle bid ask positions =
      (BacktestOrderExecutor.toCloseEntries candle P).foldl
        BacktestOrderExecutor.closeStep (P, []) := rfl
  rw [hupd]
  constructor
  · rw [hmain]
    simp
  · intro c hc hct
    have hcf : c ∈ (((BacktestOrderExecutor.toCloseEntries candle P).foldl
        BacktestOrderExecutor.closeStep (P, [])).2.filter (fun c => c.ticket = t)) :=
      List.mem_filter.mpr ⟨hc, by simp [hct]⟩
    rw [hmain] at hcf
    simp only [List.filter_nil, List.nil_append, List.mem_singleton] at hcf
    subst hcf
    exact ⟨hfields.2.1, rfl⟩

/-- Witness for C4: a buy position with SL 1995 and TP 2002 against a candle
spanning 1990–2005 closes once, at 1995, as a stop loss. -/
theorem backtest_sl_precedence_witness :
    ((BacktestOrderExecutor.update_positions ⟨2000, 2005, 1990, 2000, 0⟩ 2000 2000
        [(1001, ⟨0, 1/100, 2000, 1995, 2002, 0⟩)]).2.filter
        (fun c => c.ticket = 1001)).length = 1 ∧
    ∀ c ∈ (BacktestOrderExecutor.update_positions ⟨2000, 2005, 1990, 2000, 0⟩ 2000 2000
        [(1001, ⟨0, 1/100, 2000, 1995, 2002, 0⟩)]).2,
      c.ticket = 1001 → c.exit_price = (⟨0, 1/100, 2000, 1995, 2002, 0⟩ : BPos).sl ∧
        c.exit_reason = "stop_loss" :=
  backtest_sl_precedence ⟨2000, 2005, 1990, 2000, 0⟩ 2000 2000
    [(1001, ⟨0, 1/100, 2000, 1995, 2002, 0⟩)] 1001 ⟨0, 1/100, 2000, 1995, 2002, 0⟩
    (by simp) (by simp) (by norm_num) (by norm_num)
